import Mathlib

/-!
Verification of the Airtable MCP server's schema-reconciliation and
data-migration pipeline (`src/airtable_mcp/src/server.py`), as a shallow
embedding in Lean 4.  Python dictionaries are modelled as association
lists with Python's insertion semantics (first-insert position, last
value wins); JSON values are a small inductive type; tool bodies that
may raise are written in the `Except` monad, with the code's
`try/except` boundaries as explicit handlers.
-/

namespace Airtable

/-- A JSON value, as produced by `json.loads` / `response.json()`.
Numbers are modelled as integers (the pipeline never inspects numeric
payloads beyond carrying them verbatim). -/
inductive Json where
  | null
  | bool (b : Bool)
  | num  (n : Int)
  | str  (s : String)
  | arr  (xs : List Json)
  | obj  (entries : List (String × Json))
deriving Repr, BEq

/-- Python `dict` insertion: a repeated key keeps its first-insert
position but takes the new value; a fresh key is appended. -/
def pyInsert (l : List (String × α)) (k : String) (v : α) : List (String × α) :=
  if l.any (fun p => p.1 = k) then
    l.map (fun p => if p.1 = k then (k, v) else p)
  else
    l ++ [(k, v)]

/-- Build a Python dict from a binding list (later bindings win). -/
def pyDict (l : List (String × α)) : List (String × α) :=
  l.foldl (fun acc p => pyInsert acc p.1 p.2) []

/-- Python dict lookup on a binding list: the last binding wins, which is
what a dict built from the list would hold. -/
def pyFind (l : List (String × α)) (k : String) : Option α :=
  (l.reverse.find? (fun p => p.1 = k)).map (fun p => p.2)

/-- The key list of the Python dict built from a binding list:
first-occurrence order, no duplicates. -/
def pyKeys (l : List (String × α)) : List String :=
  (l.map (fun p => p.1)).foldl (fun acc k => if k ∈ acc then acc else acc ++ [k]) []

/-- Python `pat in s` on strings: substring containment (over char lists). -/
def listContainsSub (pat : List Char) : List Char → Bool
  | [] => pat.isEmpty
  | c :: rest => pat.isPrefixOf (c :: rest) || listContainsSub pat rest

/-- Python `pat in s` for strings. -/
def strContains (s pat : String) : Bool :=
  listContainsSub pat.toList s.toList

/-- Python `s.lower()`, code point by code point (exact on the ASCII field
names this pipeline compares). -/
def pyLower (s : String) : String :=
  String.mk (s.toList.map Char.toLower)

/-- Python truthiness (`if not x`) of a JSON value. -/
def jFalsy : Json → Bool
  | .null => true
  | .bool b => !b
  | .num n => n == 0
  | .str s => s == ""
  | .arr xs => xs.isEmpty
  | .obj es => es.isEmpty

/-- Python `k in v` (`__contains__`): key membership on a dict, element
membership on a list, substring on a string, `TypeError` otherwise. -/
def pyContains (v : Json) (k : String) : Except String Bool :=
  match v with
  | .obj es => .ok (es.any (fun p => p.1 = k))
  | .arr xs => .ok (xs.any (fun x => x == .str k))
  | .str s => .ok (strContains s k)
  | _ => .error "TypeError: argument is not iterable"

/-- Python `v[k]` subscripting with a string key: `KeyError` when the key is
absent from a dict, `TypeError` when `v` is not a dict. -/
def pyIndex (v : Json) (k : String) : Except String Json :=
  match v with
  | .obj es =>
    match pyFind es k with
    | some x => .ok x
    | none => .error ("KeyError: " ++ k)
  | _ => .error "TypeError: value is not subscriptable by a string"

/-- Python `v.get(k, default)`: defined on dicts only (`AttributeError` otherwise). -/
def pyGet (v : Json) (k : String) (dflt : Json) : Except String Json :=
  match v with
  | .obj es => .ok ((pyFind es k).getD dflt)
  | _ => .error "AttributeError: get"

/-- Python `v.pop(k)`: returns the removed value and the remaining dict. -/
def pyPop (v : Json) (k : String) : Except String (Json × Json) :=
  match v with
  | .obj es =>
    match pyFind es k with
    | some x => .ok (x, .obj (es.filter (fun p => p.1 ≠ k)))
    | none => .error ("KeyError: " ++ k)
  | _ => .error "AttributeError: pop"

/-- Python `len(v)`. -/
def jLen (v : Json) : Except String Nat :=
  match v with
  | .arr xs => .ok xs.length
  | .obj es => .ok (pyKeys es).length
  | .str s => .ok s.length
  | _ => .error "TypeError: object has no len"

/-- Python iteration (`for x in v`): list elements, dict keys, string
characters; `TypeError` otherwise. -/
def jIter (v : Json) : Except String (List Json) :=
  match v with
  | .arr xs => .ok xs
  | .obj es => .ok ((pyKeys es).map .str)
  | .str s => .ok (s.toList.map (fun c => .str (String.mk [c])))
  | _ => .error "TypeError: object is not iterable"

/-- Python `str(x)` as interpolated into the server's f-strings; exact for the
string, integer, boolean and null values these operations actually carry
(container renderings are abbreviated and never reached in the theorems). -/
def pyStr : Json → String
  | .str s => s
  | .num n => toString n
  | .bool true => "True"
  | .bool false => "False"
  | .null => "None"
  | .arr _ => "[...]"
  | .obj _ => "\x7b...\x7d"

/-- Run a `try` body whose uncaught Python exception is handled by a
`except Exception as e:` clause rendering `handler`. -/
def runExc (body : Except String String) (handler : String → String) : String :=
  match body with
  | .ok s => s
  | .error e => handler e

/-! ## The HTTP primitive `api_call` (server.py lines 53-84) -/

/-- Outcome of one underlying HTTP exchange: a 2xx response whose body parsed
as JSON, or an exception raised inside the `try` block (`raise_for_status` on
an HTTP error status, a network failure, a timeout, or a non-JSON body),
carrying `str(e)`. -/
inductive HttpOutcome where
  | success (body : Json)
  | failure (exnText : String)
deriving Repr, BEq

/-- The response environment: what the service returns for a request, keyed by
endpoint, method, JSON body and query parameters. -/
def ApiEnv : Type := String → String → Json → Json → HttpOutcome

def supportedMethods : List String := ["GET", "POST", "PATCH", "DELETE"]

/-- Embeds `api_call(endpoint, method, data, params)` (lines 53-84): returns the parsed
response JSON on success and `{"error": str(e)}` on any failure.  The
missing-token check precedes the request; an unsupported method raises
`ValueError` inside the `try`, so it too comes back as an error value. -/
def api_call (token endpoint method : String) (data params : Json) (env : ApiEnv) : Json :=
  if token = "" then
    .obj [("error", .str "No Airtable API token provided. Please set via --token or AIRTABLE_PERSONAL_ACCESS_TOKEN")]
  else if supportedMethods.contains method then
    match env endpoint method data params with
    | .success body => body
    | .failure e => .obj [("error", .str e)]
  else
    .obj [("error", .str ("Unsupported method: " ++ method))]

/-! ## `list_bases` (lines 90-106) -/

/-- The comprehension
`[f"{i+1}. {base['name']} (ID: {base['id']})" for i, base in enumerate(bases)]`:
`base['name']` and `base['id']` raise `KeyError`/`TypeError` on a malformed
entry. -/
def baseLines : Nat → List Json → Except String (List String)
  | _, [] => .ok []
  | i, b :: rest => do
    let nm ← pyIndex b "name"
    let idv ← pyIndex b "id"
    let ls ← baseLines (i + 1) rest
    pure ((toString (i + 1) ++ ". " ++ pyStr nm ++ " (ID: " ++ pyStr idv ++ ")") :: ls)

/-- Embeds `list_bases`: the tool body has no `try/except`, so it is written in the
`Except` monad — `.error` means the Python function raises instead of
returning a string (possible only on a malformed success body). -/
def list_bases (token : String) (env : ApiEnv) : Except String String := do
  if token = "" then
    return "Please provide an Airtable API token to list your bases."
  let result := api_call token "meta/bases" "GET" .null .null env
  if (← pyContains result "error") then
    return ("Error: " ++ pyStr (← pyIndex result "error"))
  let bases ← pyGet result "bases" (.arr [])
  if jFalsy bases then
    return "No bases found accessible with your token."
  let items ← jIter bases
  let base_list ← baseLines 0 items
  return ("Available bases:\n" ++ String.intercalate "\n" base_list)

/-! ## Record CRUD tools (lines 194-328)

The `records_json` string argument is represented by its `json.loads`
outcome: `none` models a string that fails to parse (`JSONDecodeError`),
`some v` a string parsing to `v`.  Both dispatch targets of
`import_records` receive the same string, hence the same outcome. -/

def noBaseMsg : String :=
  "Error: No base ID set. Please set AIRTABLE_BASE_ID in your .env file."

/-- Embeds `create_records` (lines 194-222). -/
def create_records (base table_name : String) (records_json : Option Json)
    (token : String) (env : ApiEnv) : String :=
  if base = "" then noBaseMsg
  else
    match records_json with
    | none => "Error: Invalid JSON format in records_json parameter."
    | some rj =>
      runExc (do
        let records_data := match rj with | .arr xs => xs | v => [v]
        let records := records_data.map (fun r => Json.obj [("fields", r)])
        let data := Json.obj [("records", .arr records)]
        let result := api_call token (base ++ "/" ++ table_name) "POST" data .null env
        if (← pyContains result "error") then
          return ("Error: " ++ pyStr (← pyIndex result "error"))
        let created ← pyGet result "records" (.arr [])
        let n ← jLen created
        return ("Successfully created " ++ toString n ++ " records."))
      (fun e => "Error creating records: " ++ e)

/-- Result of `update_records`' per-record loop: an early `return` with an
error string, or the assembled `{"id", "fields"}` payload list. -/
inductive UpdBuild where
  | errStr (s : String)
  | recs (l : List Json)

/-- The loop of lines 240-247: each record must have an `id` (else an early
string return); `record.pop("id")` removes it and `record.get("fields", record)`
falls back to the popped record itself. -/
def buildUpdateRecords : List Json → Except String UpdBuild
  | [] => .ok (.recs [])
  | r :: rest => do
    let hasId ← pyContains r "id"
    if hasId then do
      let (rec_id, popped) ← pyPop r "id"
      let fields ← pyGet popped "fields" popped
      match ← buildUpdateRecords rest with
      | .errStr s => pure (.errStr s)
      | .recs l => pure (.recs (Json.obj [("id", rec_id), ("fields", fields)] :: l))
    else
      pure (.errStr "Error: Each record must have an 'id' field.")

/-- Embeds `update_records` (lines 226-261). -/
def update_records (base table_name : String) (records_json : Option Json)
    (token : String) (env : ApiEnv) : String :=
  if base = "" then noBaseMsg
  else
    match records_json with
    | none => "Error: Invalid JSON format in records_json parameter."
    | some rj =>
      runExc (do
        let records_data := match rj with | .arr xs => xs | v => [v]
        match ← buildUpdateRecords records_data with
        | .errStr s => return s
        | .recs records =>
          let data := Json.obj [("records", .arr records)]
          let result := api_call token (base ++ "/" ++ table_name) "PATCH" data .null env
          if (← pyContains result "error") then
            return ("Error: " ++ pyStr (← pyIndex result "error"))
          let updated ← pyGet result "records" (.arr [])
          let n ← jLen updated
          return ("Successfully updated " ++ toString n ++ " records."))
      (fun e => "Error updating records: " ++ e)

/-- Embeds `import_records` (lines 322-328): a dispatch on the truthiness of the
`Optional[bool] = False` argument `update_existing`. -/
def import_records (base table_name : String) (records_json : Option Json)
    (update_existing : Option Bool) (token : String) (env : ApiEnv) : String :=
  if update_existing.getD false then
    update_records base table_name records_json token env
  else
    create_records base table_name records_json token env

/-! ## `delete_records` (lines 264-289) -/

/-- Python `s.split(",")`: splitting the empty string yields `[""]`, and a
trailing or doubled comma yields empty segments. -/
def pySplitComma : List Char → List (List Char)
  | [] => [[]]
  | c :: rest =>
    if c = ',' then [] :: pySplitComma rest
    else
      match pySplitComma rest with
      | [] => [[c]]
      | g :: gs => (c :: g) :: gs

/-- The characters Python's `str.strip()` removes (the ASCII ones; the
development never instantiates other Unicode whitespace). -/
def isPySpace (c : Char) : Bool :=
  c = ' ' || c = '\t' || c = '\n' || c = '\r' || c = Char.ofNat 11 || c = Char.ofNat 12

/-- Python `s.strip()`. -/
def pyStrip (l : List Char) : List Char :=
  ((l.dropWhile isPySpace).reverse.dropWhile isPySpace).reverse

/-- The delete loop of lines 280-284, also returning the record ids for which
a DELETE call was issued, in order.  `deleted_count` counts responses without
an `"error"` field; a response on which the `in` check raises aborts the loop
(caught by the tool's generic handler). -/
def deleteLoop (base table_name token : String) (env : ApiEnv) :
    List String → List String × Except String Nat
  | [] => ([], .ok 0)
  | rid :: rest =>
    let result := api_call token (base ++ "/" ++ table_name ++ "/" ++ rid) "DELETE" .null .null env
    match pyContains result "error" with
    | .error e => ([rid], .error e)
    | .ok hasErr =>
      let (tr, res) := deleteLoop base table_name token env rest
      (rid :: tr, res.map (fun n => (if hasErr then 0 else 1) + n))

/-- Embeds `delete_records` (lines 264-289), paired with the list of record ids a
DELETE call was issued for. -/
def delete_records (base table_name record_ids token : String) (env : ApiEnv) :
    String × List String :=
  if base = "" then (noBaseMsg, [])
  else
    let ids := (pySplitComma record_ids.toList).map (fun l => String.mk (pyStrip l))
    if ids = [] then ("Error: No record IDs provided.", [])
    else
      let (trace, res) := deleteLoop base table_name token env ids
      match res with
      | .ok n =>
        ("Successfully deleted " ++ toString n ++ " out of " ++ toString ids.length ++ " records.", trace)
      | .error e => ("Error deleting records: " ++ e, trace)

/-! ## Schema model (spec §3, as read from the metadata endpoints)

`description` and `options` are `Option`s because the source tests for key
presence (`"description" in field`); `ftype` renders the source's `type`
key (a Lean keyword).  Table and field metadata arrive already decoded from
the `meta/bases/{base}/tables` response; `.error e` on a fetch models the
`{"error": e}` result of `api_call`. -/

structure FieldSchema where
  id : String
  name : String
  ftype : String
  description : Option String
  options : Option Json
deriving Repr, BEq

structure TableSchema where
  id : String
  name : String
  description : Option String
  fields : List FieldSchema
deriving Repr, BEq

/-! ## `generate_field_mapping` (lines 746-806) -/

/-- The mapping loop of lines 782-794: for each source field name in order,
an exact match maps the name to itself; otherwise
`lower_targets.index(lower_source)` picks the first case-insensitive match in
target declaration order; otherwise the name is omitted. -/
def inferMapping (source_field_names target_field_names : List String) :
    List (String × String) :=
  source_field_names.foldl (fun field_mapping source_name =>
    if target_field_names.contains source_name then
      pyInsert field_mapping source_name source_name
    else
      match target_field_names.find? (fun t => pyLower t = pyLower source_name) with
      | some t => pyInsert field_mapping source_name t
      | none => field_mapping) []

/-- The distinct `return` statements of `generate_field_mapping`; rendered to
the exact strings by `gfmString`. -/
inductive GFMOutcome where
  | noBase
  | tablesError (e : String)
  | sourceNotFound (src : String)
  | targetNotFound (tgt : String)
  | noMatches
  | mapping (src tgt : String) (m : List (String × String))
deriving Repr, BEq, DecidableEq

/-- Embeds `generate_field_mapping`: looks up both tables by exact name with
`next(..., None)` (first match in declaration order), infers the mapping, and
returns the no-match message when it is empty. -/
def generate_field_mapping (base source_table target_table : String)
    (tablesFetch : Except String (List TableSchema)) : GFMOutcome :=
  if base = "" then .noBase
  else
    match tablesFetch with
    | .error e => .tablesError e
    | .ok tables =>
      match tables.find? (fun t => t.name = source_table) with
      | none => .sourceNotFound source_table
      | some source =>
        match tables.find? (fun t => t.name = target_table) with
        | none => .targetNotFound target_table
        | some target =>
          let m := inferMapping (source.fields.map (fun f => f.name))
                                (target.fields.map (fun f => f.name))
          if m = [] then .noMatches else .mapping source_table target_table m

/-- Renders `json.dumps(field_mapping, indent=2)` (exact for names without JSON
escapes, which is all the development instantiates). -/
def renderMappingJson (m : List (String × String)) : String :=
  match m with
  | [] => "\x7b\x7d"
  | _ =>
    "\x7b\n" ++
    String.intercalate ",\n"
      (m.map (fun p => "  \"" ++ p.1 ++ "\": \"" ++ p.2 ++ "\"")) ++
    "\n\x7d"

/-- The exact strings `generate_field_mapping` returns. -/
def gfmString : GFMOutcome → String
  | .noBase => noBaseMsg
  | .tablesError e => "Error accessing tables: " ++ e
  | .sourceNotFound s => "Error: Source table '" ++ s ++ "' not found."
  | .targetNotFound t => "Error: Target table '" ++ t ++ "' not found."
  | .noMatches => "No matching fields found between the tables."
  | .mapping s t m =>
    "Field mapping between '" ++ s ++ "' and '" ++ t ++ "':\n\n" ++ renderMappingJson m

/-! ## `compare_schemas` (lines 637-743) -/

/-- The per-table field differences the report prints for one table present in
both schemas: a type mismatch is `(name, currentType, schemaType)` exactly as
rendered on line 722-724. -/
structure TableDiff where
  table : String
  missingFields : List String
  extraFields : List String
  typeMismatches : List (String × String × String)
deriving Repr, BEq

/-- Lines 697-728 for one shared table: both field collections become dicts
keyed by name, and the three difference lists are computed from them. -/
def fieldDiff (schemaT liveT : TableSchema) : TableDiff :=
  let schema_fields := pyDict (schemaT.fields.map (fun f => (f.name, f)))
  let current_fields := pyDict (liveT.fields.map (fun f => (f.name, f)))
  let missing_fields :=
    (schema_fields.map (fun p => p.1)).filter (fun n => (pyFind current_fields n).isNone)
  let extra_fields :=
    (current_fields.map (fun p => p.1)).filter (fun n => (pyFind schema_fields n).isNone)
  let type_differences := schema_fields.filterMap (fun p =>
    match pyFind current_fields p.1 with
    | some cf => if p.2.ftype ≠ cf.ftype then some (p.1, cf.ftype, p.2.ftype) else none
    | none => none)
  ⟨schemaT.name, missing_fields, extra_fields, type_differences⟩

/-- The structured content of the comparison report: `tableDiffs` holds the
`fieldDiff` of every schema table also present live (in schema order —
the report prints a table's section only when one of its lists is nonempty). -/
structure SchemaComparison where
  missingTables : List String
  extraTables : List String
  tableDiffs : List TableDiff
deriving Repr, BEq

/-- Embeds `compare_schemas` (lines 659-735): the live tables are put in a dict keyed
by name (last duplicate wins), and tables are matched by exact name. -/
def compare_schemas (schema_tables current_tables : List TableSchema) :
    SchemaComparison :=
  let current_table_dict := pyDict (current_tables.map (fun t => (t.name, t)))
  let schema_table_names := schema_tables.map (fun t => t.name)
  let current_table_names := current_table_dict.map (fun p => p.1)
  let missing_tables := schema_table_names.filter (fun n => !(current_table_names.contains n))
  let extra_tables := current_table_names.filter (fun n => !(schema_table_names.contains n))
  let diffs := schema_tables.filterMap (fun t =>
    (pyFind current_table_dict t.name).map (fun liveT => fieldDiff t liveT))
  ⟨missing_tables, extra_tables, diffs⟩

/-- Line 735: the report says "The schemas are identical." iff no table-level
difference and no per-table field difference line was produced. -/
def schemasIdentical (c : SchemaComparison) : Bool :=
  c.missingTables.isEmpty && c.extraTables.isEmpty &&
  !(c.tableDiffs.any (fun d =>
    !d.missingFields.isEmpty || !d.extraFields.isEmpty || !d.typeMismatches.isEmpty))

/-! ## `update_schema` (lines 392-503), per-shared-table call sequence -/

/-- The `field_data` payload of an "add field" POST (lines 456-465):
description and options are included only when present in the desired field. -/
structure FieldAddData where
  name : String
  ftype : String
  description : Option String
  options : Option Json
deriving Repr, BEq

/-- The `field_data` payload queued for the batched PATCH (lines 441-453):
the existing field's id plus the desired name/type, with description and
options included only when the desired field carries them. -/
structure FieldUpdateData where
  id : String
  name : String
  ftype : String
  description : Option String
  options : Option Json
deriving Repr, BEq

/-- A metadata write issued while reconciling one table. -/
inductive SchemaCall where
  | addField (tableId : String) (fd : FieldAddData)
  | updateFields (tableId : String) (fds : List FieldUpdateData)
deriving Repr, BEq

/-- Lines 429-491 for one desired table whose name exists live: the field loop
issues one POST per desired field absent from the live table as it goes and
queues every desired field present in the live table (keyed through the
`existing_fields` dict); after the loop, one batched PATCH is issued iff the
queue is nonempty.  Which calls are issued does not depend on the responses
(they only shape the result strings), so no response environment appears. -/
def update_schema_table_calls (existing_table table : TableSchema) : List SchemaCall :=
  let existing_fields := pyDict (existing_table.fields.map (fun f => (f.name, f)))
  let st := table.fields.foldl
    (fun (st : List SchemaCall × List FieldUpdateData) field =>
      match pyFind existing_fields field.name with
      | some ef =>
        (st.1, st.2 ++ [⟨ef.id, field.name, field.ftype, field.description, field.options⟩])
      | none =>
        (st.1 ++ [.addField existing_table.id
                    ⟨field.name, field.ftype, field.description, field.options⟩], st.2))
    ([], [])
  st.1 ++ (if st.2.isEmpty then [] else [.updateFields existing_table.id st.2])

/-! ## `migrate_data` (lines 809-883) -/

/-- The mapping argument: the empty `mapping_json` string (derive
automatically), a non-empty string that fails `json.loads`, or a parsed
JSON object. -/
inductive MappingArg where
  | absent
  | invalid
  | given (m : List (String × String))
deriving Repr, BEq, DecidableEq

/-- The distinct `return` statements of `migrate_data`; rendered to the exact
strings by `migrateMessage`. -/
inductive MigOutcome where
  | noBase
  | mappingError (s : String)
  | invalidMappingJson
  | sourceError (e : String)
  | noSourceRecords
  | noRecordsToMigrate
  | batchError (e : String)
  | exnError (e : String)
  | migrated (count : Nat)
deriving Repr, DecidableEq

/-- The exact strings `migrate_data` returns. -/
def migrateMessage (source_table target_table : String) : MigOutcome → String
  | .noBase => noBaseMsg
  | .mappingError s => s
  | .invalidMappingJson => "Error: Invalid JSON format in mapping_json parameter."
  | .sourceError e => "Error accessing source table: " ++ e
  | .noSourceRecords => "No records found in source table '" ++ source_table ++ "'."
  | .noRecordsToMigrate => "No records to migrate after applying field mapping."
  | .batchError e => "Error creating records in target table: " ++ e
  | .exnError e => "Error migrating data: " ++ e
  | .migrated n =>
    "Successfully migrated " ++ toString n ++ " records from '" ++ source_table ++
    "' to '" ++ target_table ++ "'."

/-- Lines 846-857: project each source record's fields through the mapping in
mapping order (`field_mapping.items()`), keeping only records whose projected
field dict is nonempty. -/
def buildTargetRecords (field_mapping : List (String × String)) (rs : List Json) :
    Except String (List Json) :=
  rs.foldlM (fun acc record => do
    let source_fields ← pyGet record "fields" (.obj [])
    let target_fields ← field_mapping.foldlM (fun tf p => do
      if (← pyContains source_fields p.1) then
        pure (pyInsert tf p.2 (← pyIndex source_fields p.1))
      else pure tf) ([] : List (String × Json))
    pure (if target_fields.isEmpty then acc
          else acc ++ [Json.obj [("fields", Json.obj target_fields)]])) []

/-- Structural helper for `chunk10`: walk the list, filling the current chunk
(kept reversed) with up to `n` more elements before closing it. -/
def chunkGo : List α → List α → Nat → List (List α)
  | [], cur, _ => if cur.isEmpty then [] else [cur.reverse]
  | a :: rest, cur, n =>
    match n with
    | 0 => cur.reverse :: chunkGo rest [a] 9
    | m + 1 => chunkGo rest (a :: cur) m

/-- Line 867: `range(0, len(target_records), batch_size)` slicing with
`batch_size = 10`; `chunk10_cons_eq` below states the slicing equation. -/
def chunk10 (l : List α) : List (List α) := chunkGo l [] 10

/-- How the batch loop of lines 867-876 ends. -/
inductive BatchRun where
  | done (migrated : Nat)
  | upstreamError (e : String)
  | exn (e : String)
deriving Repr, DecidableEq

/-- The batch loop: submit each batch as one POST, stop at the first response
carrying an `error` field (discarding the count accumulated so far), and on
success accumulate `len(create_result.get("records", []))`.  Also returns the
batches actually submitted, in order. -/
def migrateBatches (base target_table token : String) (env : ApiEnv) :
    List (List Json) → List (List Json) × BatchRun
  | [] => ([], .done 0)
  | batch :: rest =>
    let batch_data := Json.obj [("records", .arr batch)]
    let create_result := api_call token (base ++ "/" ++ target_table) "POST" batch_data .null env
    match pyContains create_result "error" with
    | .error e => ([batch], .exn e)
    | .ok true =>
      match pyIndex create_result "error" with
      | .error e => ([batch], .exn e)
      | .ok ev => ([batch], .upstreamError (pyStr ev))
    | .ok false =>
      match (do jLen (← pyGet create_result "records" (.arr []))) with
      | .error e => ([batch], .exn e)
      | .ok n =>
        let (tr, res) := migrateBatches base target_table token env rest
        (batch :: tr,
         match res with
         | .done m => .done (n + m)
         | x => x)

/-- Embeds `migrate_data` (lines 809-883), paired with the record batches a create
call was issued for.  `tablesFetch` is the decoded metadata read used only by
the automatic-mapping path; `sourceFetch` is the decoded
`result.get("records", [])` of the source read (`.error` its `error` field);
the `find('{')`/`json.loads` handshake on `generate_field_mapping`'s string
result is modelled structurally: the rendered JSON object round-trips to the
mapping, and the messages without a brace leave the mapping empty. -/
def migrate_data (base source_table target_table token : String)
    (mappingArg : MappingArg)
    (tablesFetch : Except String (List TableSchema))
    (sourceFetch : Except String (List Json))
    (env : ApiEnv) : MigOutcome × List (List Json) :=
  if base = "" then (.noBase, [])
  else
    let mappingStep : Except MigOutcome (List (String × String)) :=
      match mappingArg with
      | .invalid => .error .invalidMappingJson
      | .given m => .ok m
      | .absent =>
        let out := generate_field_mapping base source_table target_table tablesFetch
        if strContains (gfmString out) "Error" then .error (.mappingError (gfmString out))
        else
          match out with
          | .mapping _ _ m => .ok m
          | _ => .ok []
    match mappingStep with
    | .error o => (o, [])
    | .ok field_mapping =>
      match sourceFetch with
      | .error e => (.sourceError e, [])
      | .ok source_records =>
        if source_records.isEmpty then (.noSourceRecords, [])
        else
          match buildTargetRecords field_mapping source_records with
          | .error e => (.exnError e, [])
          | .ok target_records =>
            if target_records.isEmpty then (.noRecordsToMigrate, [])
            else
              let (trace, run) := migrateBatches base target_table token env (chunk10 target_records)
              (match run with
               | .done n => .migrated n
               | .upstreamError e => .batchError e
               | .exn e => .exnError e, trace)

/-! ## Derived definitions used by the theorem statements -/

/-- The projection of one source record's field dict through the mapping, in
mapping order (the loop body of lines 852-854). -/
def projFields (field_mapping : List (String × String)) (fs : List (String × Json)) :
    List (String × Json) :=
  field_mapping.foldl (fun tf p =>
    match pyFind fs p.1 with
    | some v => pyInsert tf p.2 v
    | none => tf) []

/-- A source record of the shape the wire contract guarantees: an object whose
`fields` entry, when present, is an object. -/
def wfRecord : Json → Bool
  | .obj es =>
    match pyFind es "fields" with
    | some (.obj _) => true
    | none => true
    | _ => false
  | _ => false

/-- The field dict of a well-formed source record (`record.get("fields", {})`). -/
def fieldsOf (r : Json) : List (String × Json) :=
  match r with
  | .obj es =>
    match pyFind es "fields" with
    | some (.obj fs) => fs
    | _ => []
  | _ => []

/-- The write set of a migration: the projected records with a nonempty
projection, in source order (spec §4.5 step 3). -/
def eligibleRecords (field_mapping : List (String × String)) (rs : List Json) :
    List Json :=
  (rs.map (fun r => projFields field_mapping (fieldsOf r))).filterMap
    (fun tf => if tf.isEmpty then none else some (Json.obj [("fields", Json.obj tf)]))

/-- Response environments whose bodies the tools' `"error" in result` check
handles without raising (objects, lists or strings — the wire contract
delivers objects). -/
def respHandled : HttpOutcome → Prop
  | .success (.obj _) => True
  | .success (.arr _) => True
  | .success (.str _) => True
  | .success _ => False
  | .failure _ => True

def envHandled (env : ApiEnv) : Prop := ∀ ep m d p, respHandled (env ep m d p)

/-- A well-formed entry of a `meta/bases` response: an object carrying
`name` and `id`. -/
def wfBaseEntry : Json → Bool
  | .obj bs => (pyFind bs "name").isSome && (pyFind bs "id").isSome
  | _ => false

/-- A well-formed `meta/bases` response body: an object whose `bases` entry,
when present, is a list of objects each carrying `name` and `id` (the wire
contract of spec §6). -/
def wfBasesBody : Json → Bool
  | .obj es =>
    match pyFind es "bases" with
    | some (.arr xs) => xs.all wfBaseEntry
    | some _ => false
    | none => true
  | _ => false

/-! ### Concrete inputs used by witnesses and counterexamples -/

/-- Twenty-three well-formed source records, each with one field `A`. -/
def rec23 : List Json :=
  (List.range 23).map (fun i =>
    Json.obj [("fields", Json.obj [("A", Json.str ("r" ++ toString i))])])

/-- An environment that echoes every create request back as its response
(so the reported created records are exactly the submitted batch). -/
def envEcho : ApiEnv := fun _ _ data _ => .success data

/-- An environment that fails the batch whose first record carries field value
`"r10"` — i.e. the second of the three batches of `rec23` — and echoes every
other request. -/
def envBoom : ApiEnv := fun _ _ data _ =>
  match data with
  | .obj [("records", .arr l)] =>
    match l.headD .null with
    | .obj [("fields", .obj [("A", .str s)])] =>
      if s = "r10" then .failure "boom" else .success data
    | _ => .success data
  | _ => .success data

/-- A live table `T` with a single field `A : singleLineText`. -/
def liveA : TableSchema :=
  ⟨"tbl1", "T", none, [⟨"fld1", "A", "singleLineText", none, none⟩]⟩

/-- A desired table `T` identical to `liveA`: same field name, type and
(absent) description. -/
def desiredA : TableSchema :=
  ⟨"", "T", none, [⟨"", "A", "singleLineText", none, none⟩]⟩

/-- Source and target tables with no field names in common. -/
def tablesAB : List TableSchema :=
  [⟨"t1", "Src", none, [⟨"f1", "A", "singleLineText", none, none⟩]⟩,
   ⟨"t2", "Tgt", none, [⟨"f2", "B", "singleLineText", none, none⟩]⟩]

/-- The live schema of the spec's comparison scenario. -/
def exLive : List TableSchema :=
  [⟨"t1", "Projects", none, []⟩, ⟨"t2", "Tasks", none, []⟩]

/-- The desired schema of the spec's comparison scenario. -/
def exDesired : List TableSchema :=
  [⟨"", "Projects", none, []⟩, ⟨"", "Archive", none, []⟩]

/-! ## Helper lemmas about the Python-dict model -/

theorem pyFind_nil (k : String) : pyFind ([] : List (String × α)) k = none := rfl

theorem pyFind_cons (k1 k : String) (v1 : α) (l : List (String × α)) :
    pyFind ((k1, v1) :: l) k =
      (pyFind l k).or (if k1 = k then some v1 else none) := by
  simp only [pyFind, List.reverse_cons, List.find?_append]
  cases h : (l.reverse.find? (fun p => p.1 = k)) with
  | none =>
    simp only [Option.or_none, Option.none_or, Option.map_none']
    by_cases hk : k1 = k
    · simp [List.find?, hk]
    · simp [List.find?, hk]
  | some p => simp [Option.or_some]

theorem pyFind_eq_none_iff (l : List (String × α)) (k : String) :
    pyFind l k = none ↔ k ∉ l.map (fun p => p.1) := by
  simp only [pyFind, Option.map_eq_none', List.find?_eq_none, List.mem_reverse,
    List.mem_map]
  constructor
  · rintro h ⟨p, hp, rfl⟩
    exact (h p hp) (by simp)
  · rintro h p hp hk
    exact h ⟨p, hp, by simpa using hk⟩

theorem pyFind_isSome_iff (l : List (String × α)) (k : String) :
    (pyFind l k).isSome = true ↔ k ∈ l.map (fun p => p.1) := by
  constructor
  · intro h
    by_contra hk
    rw [(pyFind_eq_none_iff l k).mpr hk] at h
    simp at h
  · intro h
    cases hs : pyFind l k with
    | none => exact absurd ((pyFind_eq_none_iff l k).mp hs) (not_not_intro h)
    | some v => simp

theorem pyInsert_of_not_mem (l : List (String × α)) (k : String) (v : α)
    (h : l.any (fun p => p.1 = k) = false) :
    pyInsert l k v = l ++ [(k, v)] := by
  simp [pyInsert, h]

theorem pyFind_append_single (l : List (String × α)) (k k' : String) (v : α) :
    pyFind (l ++ [(k, v)]) k' = if k = k' then some v else pyFind l k' := by
  simp only [pyFind, List.reverse_append, List.reverse_cons, List.reverse_nil,
    List.nil_append, List.singleton_append, List.find?_cons]
  by_cases h : k = k' <;> simp [h]

theorem pyFind_map_overwrite (l : List (String × α)) (k k' : String) (v : α) :
    pyFind (l.map (fun p => if p.1 = k then (k, v) else p)) k' =
      if k = k' then (pyFind l k).map (fun _ => v) else pyFind l k' := by
  induction l with
  | nil => by_cases h : k = k' <;> simp [pyFind_nil, h]
  | cons p rest ih =>
    obtain ⟨k1, v1⟩ := p
    by_cases hk : k = k'
    · subst hk
      by_cases h1 : k1 = k
      · subst h1
        cases hrest : pyFind rest k1 <;>
          simp [List.map_cons, pyFind_cons, ih, hrest]
      · cases hrest : pyFind rest k <;>
          simp [List.map_cons, pyFind_cons, ih, hrest, h1]
    · by_cases h1 : k1 = k
      · subst h1
        simp [List.map_cons, pyFind_cons, ih, hk]
      · simp [List.map_cons, pyFind_cons, ih, hk, h1]

/-- Inserting then looking up: Python dict update semantics. -/
theorem pyFind_pyInsert (l : List (String × α)) (k k' : String) (v : α) :
    pyFind (pyInsert l k v) k' = if k = k' then some v else pyFind l k' := by
  by_cases hany : l.any (fun p => p.1 = k) = true
  · have : pyInsert l k v = l.map (fun p => if p.1 = k then (k, v) else p) := by
      simp [pyInsert, hany]
    rw [this, pyFind_map_overwrite]
    by_cases hk : k = k'
    · subst hk
      have : k ∈ l.map (fun p => p.1) := by
        rcases List.any_eq_true.mp hany with ⟨p, hp, hpk⟩
        exact List.mem_map.mpr ⟨p, hp, by simpa using hpk⟩
      rcases Option.isSome_iff_exists.mp ((pyFind_isSome_iff l k).mpr this) with ⟨w, hw⟩
      simp [hw]
    · simp [hk]
  · rw [pyInsert_of_not_mem _ _ _ (Bool.eq_false_iff.mpr hany), pyFind_append_single]

theorem pyDict_aux_eq_of_nodup (l acc : List (String × α))
    (h : ((acc ++ l).map (fun p => p.1)).Nodup) :
    l.foldl (fun a p => pyInsert a p.1 p.2) acc = acc ++ l := by
  induction l generalizing acc with
  | nil => simp
  | cons p rest ih =>
    obtain ⟨k, v⟩ := p
    have hknot : acc.any (fun q => q.1 = k) = false := by
      rw [Bool.eq_false_iff]
      intro hc
      rcases List.any_eq_true.mp hc with ⟨q, hq, hqk⟩
      have hqk' : q.1 = k := by simpa using hqk
      have hsplit := h
      simp only [List.map_append, List.nodup_append] at hsplit
      exact hsplit.2.2 (List.mem_map.mpr ⟨q, hq, rfl⟩) (by simp [hqk'])
    simp only [List.foldl_cons]
    rw [pyInsert_of_not_mem _ _ _ hknot]
    rw [ih (acc ++ [(k, v)]) (by simpa using h)]
    simp

/-- A binding list without duplicate keys is its own Python dict. -/
theorem pyDict_eq_self_of_nodup (l : List (String × α))
    (h : (l.map (fun p => p.1)).Nodup) : pyDict l = l := by
  simpa using pyDict_aux_eq_of_nodup l [] (by simpa using h)

/-- Under unique keys, dict lookup is plain association-list membership. -/
theorem pyFind_eq_some_iff_of_nodup (l : List (String × α)) (k : String) (v : α)
    (h : (l.map (fun p => p.1)).Nodup) :
    pyFind l k = some v ↔ (k, v) ∈ l := by
  induction l with
  | nil => simp [pyFind_nil]
  | cons p rest ih =>
    obtain ⟨k1, v1⟩ := p
    simp only [List.map_cons, List.nodup_cons] at h
    rw [pyFind_cons]
    constructor
    · intro hf
      cases hrest : pyFind rest k with
      | some w =>
        rw [hrest] at hf
        simp only [Option.or_some, Option.some.injEq] at hf
        subst hf
        exact List.mem_cons_of_mem _ ((ih h.2).mp hrest)
      | none =>
        rw [hrest] at hf
        simp only [Option.none_or] at hf
        by_cases h1 : k1 = k
        · subst h1
          simp only [if_true, eq_self_iff_true, if_pos] at hf
          simp at hf
          subst hf
          exact List.mem_cons_self _ _
        · simp [h1] at hf
    · intro hm
      rcases List.mem_cons.mp hm with heq | hmem
      · simp only [Prod.mk.injEq] at heq
        obtain ⟨rfl, rfl⟩ := heq
        have : pyFind rest k = none := by
          rw [pyFind_eq_none_iff]
          exact h.1
        simp [this]
      · have hrest := (ih h.2).mpr hmem
        simp [hrest]

/-! ## Helper lemmas about batching and splitting -/

theorem chunk10_nil : chunk10 ([] : List α) = [] := rfl

theorem chunkGo_eq (l : List α) : ∀ (cur : List α) (n : Nat),
    ¬(cur = [] ∧ l = []) →
    chunkGo l cur n = (cur.reverse ++ l.take n) :: chunkGo (l.drop n) [] 10 := by
  induction l with
  | nil =>
    intro cur n hcond
    have hcur : cur ≠ [] := fun hc => hcond ⟨hc, rfl⟩
    have : cur.isEmpty = false := by
      cases cur with
      | nil => exact absurd rfl hcur
      | cons x xs => rfl
    simp [chunkGo, this]
  | cons a rest ih =>
    intro cur n hcond
    cases n with
    | zero =>
      simp only [List.take_zero, List.drop_zero, List.append_nil]
      show cur.reverse :: chunkGo rest [a] 9 = cur.reverse :: chunkGo (a :: rest) [] 10
      rfl
    | succ m =>
      show chunkGo rest (a :: cur) m = _
      rw [ih (a :: cur) m (fun hc => List.noConfusion hc.1)]
      simp [List.take_succ_cons, List.drop_succ_cons]

theorem chunk10_cons_eq (l : List α) (h : l ≠ []) :
    chunk10 l = l.take 10 :: chunk10 (l.drop 10) := by
  have := chunkGo_eq l [] 10 (fun hc => h hc.2)
  simpa [chunk10] using this

/-- Batching partitions the write set: concatenating the batches in order
gives back the list. -/
theorem chunk10_flatten (l : List α) : (chunk10 l).flatten = l := by
  generalize hn : l.length = n
  induction n using Nat.strong_induction_on generalizing l with
  | _ n ih =>
    cases l with
    | nil => simp [chunk10_nil]
    | cons a rest =>
      rw [chunk10_cons_eq _ (by simp)]
      simp only [List.flatten_cons]
      rcases hn with rfl
      rw [ih ((a :: rest).drop 10).length (by simp [List.length_drop]; omega) _ rfl]
      exact List.take_append_drop 10 (a :: rest)

/-- Every batch holds between 1 and 10 records. -/
theorem chunk10_mem_length (l : List α) (b : List α) (hb : b ∈ chunk10 l) :
    b.length ≤ 10 ∧ b ≠ [] := by
  generalize hn : l.length = n
  induction n using Nat.strong_induction_on generalizing l b with
  | _ n ih =>
    cases l with
    | nil => simp [chunk10_nil] at hb
    | cons a rest =>
      rw [chunk10_cons_eq _ (by simp)] at hb
      rcases List.mem_cons.mp hb with rfl | hmem
      · constructor
        · simp [List.length_take]
        · simp
      · rcases hn with rfl
        exact ih ((a :: rest).drop 10).length (by simp [List.length_drop]; omega) _ _ hmem rfl

/-- Python `s.split(",")` never returns the empty list (on `""` it returns `[""]`),
so `delete_records`' empty-ids guard can never fire. -/
theorem pySplitComma_ne_nil (l : List Char) : pySplitComma l ≠ [] := by
  induction l with
  | nil => simp [pySplitComma]
  | cons c rest ih =>
    simp only [pySplitComma]
    by_cases h : c = ','
    · simp [h]
    · simp only [if_neg h]
      cases hr : pySplitComma rest with
      | nil => simp
      | cons g gs => simp

theorem except_bind_ok (a : α) (f : α → Except ε β) :
    (Except.ok a >>= f) = f a := rfl

theorem except_bind_error (e : ε) (f : α → Except ε β) :
    ((Except.error e : Except ε α) >>= f) = .error e := rfl

theorem except_pure_bind (a : α) (f : α → Except ε β) :
    ((pure a : Except ε α) >>= f) = f a := rfl

theorem except_pure_eq (a : α) : (pure a : Except ε α) = .ok a := rfl

theorem pyFind_foldl_pyInsert (l : List (String × α)) (acc : List (String × α))
    (k : String) :
    pyFind (l.foldl (fun a p => pyInsert a p.1 p.2) acc) k =
      (pyFind l k).or (pyFind acc k) := by
  induction l generalizing acc with
  | nil => simp [pyFind_nil]
  | cons p rest ih =>
    obtain ⟨k1, v1⟩ := p
    simp only [List.foldl_cons]
    rw [ih, pyFind_pyInsert, pyFind_cons]
    cases hrest : pyFind rest k with
    | some w => simp
    | none =>
      by_cases h1 : k1 = k <;> simp [h1]

/-- Building the Python dict does not change what lookup returns. -/
theorem pyFind_pyDict (l : List (String × α)) (k : String) :
    pyFind (pyDict l) k = pyFind l k := by
  rw [pyDict, pyFind_foldl_pyInsert]
  simp [pyFind_nil]

theorem pyInsert_keys (l : List (String × α)) (k : String) (v : α) :
    (pyInsert l k v).map (fun p => p.1) =
      if l.any (fun p => p.1 = k) then l.map (fun p => p.1)
      else l.map (fun p => p.1) ++ [k] := by
  by_cases h : l.any (fun p => p.1 = k) = true
  · simp only [pyInsert, h, if_true, List.map_map]
    congr 1
    funext p
    by_cases hp : p.1 = k <;> simp [hp]
  · simp [pyInsert, h]

theorem pyDict_keys_nodup (l : List (String × α)) :
    ((pyDict l).map (fun p => p.1)).Nodup := by
  suffices h : ∀ (l acc : List (String × α)), ((acc.map (fun p => p.1)).Nodup) →
      (((l.foldl (fun a p => pyInsert a p.1 p.2) acc).map (fun p => p.1)).Nodup) by
    exact h l [] (by simp)
  intro l
  induction l with
  | nil => intro acc h; simpa using h
  | cons p rest ih =>
    intro acc hacc
    obtain ⟨k, v⟩ := p
    simp only [List.foldl_cons]
    apply ih
    rw [pyInsert_keys]
    by_cases h : acc.any (fun q => q.1 = k) = true
    · simpa [h] using hacc
    · have hfalse : acc.any (fun q => q.1 = k) = false := Bool.eq_false_iff.mpr h
      simp only [hfalse, Bool.false_eq_true, if_false, List.nodup_append]
      refine ⟨hacc, by simp, ?_⟩
      intro x hx hk
      rw [List.mem_singleton] at hk
      subst hk
      rcases List.mem_map.mp hx with ⟨q, hq, hqk⟩
      exact absurd (List.any_eq_true.mpr ⟨q, hq, by simp [hqk]⟩) h

/-- Membership in the Python dict built from a binding list is exactly
"lookup in the list returns this value". -/
theorem mem_pyDict_iff (l : List (String × α)) (k : String) (v : α) :
    (k, v) ∈ pyDict l ↔ pyFind l k = some v := by
  rw [← pyFind_pyDict]
  exact (pyFind_eq_some_iff_of_nodup (pyDict l) k v (pyDict_keys_nodup l)).symm

/-! ## Helper lemmas about the migration runner -/

theorem projFold_eq (m : List (String × String)) (fs acc : List (String × Json)) :
    (m.foldlM (fun tf p => do
      if (← pyContains (Json.obj fs) p.1) then
        pure (pyInsert tf p.2 (← pyIndex (Json.obj fs) p.1))
      else pure tf) acc : Except String (List (String × Json))) =
    .ok (m.foldl (fun tf p =>
      match pyFind fs p.1 with
      | some v => pyInsert tf p.2 v
      | none => tf) acc) := by
  induction m generalizing acc with
  | nil => rfl
  | cons p rest ih =>
    obtain ⟨sf, tgt⟩ := p
    rw [List.foldlM_cons, List.foldl_cons]
    cases hfind : pyFind fs sf with
    | some v =>
      have hany : fs.any (fun q => q.1 = sf) = true := by
        have := (pyFind_isSome_iff fs sf).mp (by simp [hfind])
        rcases List.mem_map.mp this with ⟨q, hq, hqk⟩
        exact List.any_eq_true.mpr ⟨q, hq, by simp [hqk]⟩
      simp only [pyContains, hany, pyIndex, hfind, except_bind_ok, if_true]
      exact ih (pyInsert acc tgt v)
    | none =>
      have hany : fs.any (fun q => q.1 = sf) = false := by
        rw [Bool.eq_false_iff]
        intro hc
        rcases List.any_eq_true.mp hc with ⟨q, hq, hqk⟩
        have hmem : sf ∈ fs.map (fun p => p.1) := List.mem_map.mpr ⟨q, hq, by simpa using hqk⟩
        exact (pyFind_eq_none_iff fs sf).mp hfind hmem
      simp only [pyContains, hany, except_bind_ok, Bool.false_eq_true, if_false]
      exact ih acc

theorem pyGet_fields_of_wf (r : Json) (h : wfRecord r = true) :
    pyGet r "fields" (.obj []) = .ok (.obj (fieldsOf r)) := by
  cases r with
  | obj es =>
    cases hf : pyFind es "fields" with
    | none => simp [pyGet, fieldsOf, hf]
    | some v =>
      cases v with
      | obj fs => simp [pyGet, fieldsOf, hf]
      | null => simp [wfRecord, hf] at h
      | bool b => simp [wfRecord, hf] at h
      | num n => simp [wfRecord, hf] at h
      | str s => simp [wfRecord, hf] at h
      | arr xs => simp [wfRecord, hf] at h
  | null => simp [wfRecord] at h
  | bool b => simp [wfRecord] at h
  | num n => simp [wfRecord] at h
  | str s => simp [wfRecord] at h
  | arr xs => simp [wfRecord] at h

/-- On well-formed source records the record loop of `migrate_data` computes
exactly the eligible write set (zero-field projections excluded). -/
theorem buildTargetRecords_eq (m : List (String × String)) (rs : List Json)
    (h : rs.all wfRecord = true) :
    buildTargetRecords m rs = .ok (eligibleRecords m rs) := by
  suffices haux : ∀ (rs : List Json) (acc : List Json), rs.all wfRecord = true →
      (rs.foldlM (fun acc record => do
        let source_fields ← pyGet record "fields" (.obj [])
        let target_fields ← m.foldlM (fun tf p => do
          if (← pyContains source_fields p.1) then
            pure (pyInsert tf p.2 (← pyIndex source_fields p.1))
          else pure tf) ([] : List (String × Json))
        pure (if target_fields.isEmpty then acc
              else acc ++ [Json.obj [("fields", Json.obj target_fields)]])) acc :
        Except String (List Json)) = .ok (acc ++ eligibleRecords m rs) by
    rw [buildTargetRecords]
    rw [haux rs [] h]
    simp
  intro rs
  induction rs with
  | nil =>
    intro acc _
    simp only [List.foldlM_nil, eligibleRecords, List.map_nil, List.filterMap_nil,
      List.append_nil]
    rfl
  | cons r rest ih =>
    intro acc hall
    have hr : wfRecord r = true := by
      simp only [List.all_cons, Bool.and_eq_true] at hall
      exact hall.1
    have hrest : rest.all wfRecord = true := by
      simp only [List.all_cons, Bool.and_eq_true] at hall
      exact hall.2
    rw [List.foldlM_cons]
    rw [pyGet_fields_of_wf r hr, except_bind_ok, projFold_eq, except_bind_ok]
    rw [show (m.foldl (fun tf p =>
      match pyFind (fieldsOf r) p.1 with
      | some v => pyInsert tf p.2 v
      | none => tf) []) = projFields m (fieldsOf r) from rfl]
    rw [except_pure_bind]
    rw [ih _ hrest]
    congr 1
    simp only [eligibleRecords, List.map_cons, List.filterMap_cons]
    by_cases hempty : (projFields m (fieldsOf r)).isEmpty = true
    · simp [hempty]
    · have : (projFields m (fieldsOf r)).isEmpty = false := Bool.eq_false_iff.mpr hempty
      simp [this, eligibleRecords]

/-- With an empty mapping the record loop either computes an empty write set
or raises (a malformed record), but never produces records to write. -/
theorem buildTargetRecords_nil_mapping (rs : List Json) :
    buildTargetRecords [] rs = .ok [] ∨ ∃ e, buildTargetRecords [] rs = .error e := by
  suffices haux : ∀ (rs : List Json),
      (rs.foldlM (fun acc record => do
        let source_fields ← pyGet record "fields" (.obj [])
        let target_fields ← ([] : List (String × String)).foldlM (fun tf p => do
          if (← pyContains source_fields p.1) then
            pure (pyInsert tf p.2 (← pyIndex source_fields p.1))
          else pure tf) ([] : List (String × Json))
        pure (if target_fields.isEmpty then acc
              else acc ++ [Json.obj [("fields", Json.obj target_fields)]])) [] :
        Except String (List Json)) = .ok [] ∨
      ∃ e, (rs.foldlM (fun acc record => do
        let source_fields ← pyGet record "fields" (.obj [])
        let target_fields ← ([] : List (String × String)).foldlM (fun tf p => do
          if (← pyContains source_fields p.1) then
            pure (pyInsert tf p.2 (← pyIndex source_fields p.1))
          else pure tf) ([] : List (String × Json))
        pure (if target_fields.isEmpty then acc
              else acc ++ [Json.obj [("fields", Json.obj target_fields)]])) [] :
        Except String (List Json)) = .error e by
    exact haux rs
  suffices hgen : ∀ (rs : List Json) (acc : List Json), acc = [] →
      (rs.foldlM (fun acc record => do
        let source_fields ← pyGet record "fields" (.obj [])
        let target_fields ← ([] : List (String × String)).foldlM (fun tf p => do
          if (← pyContains source_fields p.1) then
            pure (pyInsert tf p.2 (← pyIndex source_fields p.1))
          else pure tf) ([] : List (String × Json))
        pure (if target_fields.isEmpty then acc
              else acc ++ [Json.obj [("fields", Json.obj target_fields)]])) acc :
        Except String (List Json)) = .ok [] ∨
      ∃ e, (rs.foldlM (fun acc record => do
        let source_fields ← pyGet record "fields" (.obj [])
        let target_fields ← ([] : List (String × String)).foldlM (fun tf p => do
          if (← pyContains source_fields p.1) then
            pure (pyInsert tf p.2 (← pyIndex source_fields p.1))
          else pure tf) ([] : List (String × Json))
        pure (if target_fields.isEmpty then acc
              else acc ++ [Json.obj [("fields", Json.obj target_fields)]])) acc :
        Except String (List Json)) = .error e by
    intro rs
    exact hgen rs [] rfl
  intro rs
  induction rs with
  | nil =>
    intro acc hacc
    subst hacc
    left
    rfl
  | cons r rest ih =>
    intro acc hacc
    subst hacc
    rw [List.foldlM_cons]
    cases hget : pyGet r "fields" (.obj []) with
    | error e =>
      right
      exact ⟨e, by simp [hget, except_bind_error]⟩
    | ok sf =>
      rw [except_bind_ok, List.foldlM_nil, except_pure_bind, except_pure_bind]
      simpa using ih [] rfl

/-- The body of one successful create call inside the batch loop. -/
theorem migrateBatches_ok (base tgt token : String) (env : ApiEnv)
    (created : List Json → List Json) (htok : ¬ token = "") :
    ∀ batches : List (List Json),
      (∀ b ∈ batches,
        env (base ++ "/" ++ tgt) "POST" (Json.obj [("records", .arr b)]) .null =
          .success (Json.obj [("records", .arr (created b))])) →
      migrateBatches base tgt token env batches =
        (batches, .done ((batches.map (fun b => (created b).length)).sum)) := by
  intro batches
  induction batches with
  | nil => intro _; simp [migrateBatches]
  | cons b rest ih =>
    intro hresp
    have hb := hresp b (List.mem_cons_self _ _)
    have hrest := ih (fun x hx => hresp x (List.mem_cons_of_mem _ hx))
    have hapi : api_call token (base ++ "/" ++ tgt) "POST"
        (Json.obj [("records", Json.arr b)]) .null env =
        Json.obj [("records", Json.arr (created b))] := by
      simp [api_call, htok, supportedMethods, hb]
    simp only [migrateBatches, hapi, hrest]
    simp [pyContains, pyGet, pyFind, jLen, except_bind_ok, except_pure_bind, List.find?]

/-- The body of a failing create call inside the batch loop: the loop stops,
discards the accumulated count, and returns the error text alone. -/
theorem migrateBatches_fail (base tgt token : String) (env : ApiEnv)
    (created : List Json → List Json) (e : String) (htok : ¬ token = "") :
    ∀ (pre : List (List Json)) (b : List Json) (post : List (List Json)),
      (∀ x ∈ pre,
        env (base ++ "/" ++ tgt) "POST" (Json.obj [("records", .arr x)]) .null =
          .success (Json.obj [("records", .arr (created x))])) →
      env (base ++ "/" ++ tgt) "POST" (Json.obj [("records", .arr b)]) .null =
        .failure e →
      migrateBatches base tgt token env (pre ++ b :: post) =
        (pre ++ [b], .upstreamError e) := by
  intro pre
  induction pre with
  | nil =>
    intro b post _ hfail
    have hapi : api_call token (base ++ "/" ++ tgt) "POST"
        (Json.obj [("records", Json.arr b)]) .null env =
        Json.obj [("error", Json.str e)] := by
      simp [api_call, htok, supportedMethods, hfail]
    simp only [List.nil_append, migrateBatches, hapi]
    simp [pyContains, pyIndex, pyFind, pyStr, List.find?]
  | cons x pre' ih =>
    intro b post hpre hfail
    have hx := hpre x (List.mem_cons_self _ _)
    have hrest := ih b post (fun y hy => hpre y (List.mem_cons_of_mem _ hy)) hfail
    have hapi : api_call token (base ++ "/" ++ tgt) "POST"
        (Json.obj [("records", Json.arr x)]) .null env =
        Json.obj [("records", Json.arr (created x))] := by
      simp [api_call, htok, supportedMethods, hx]
    simp only [List.cons_append, migrateBatches, hapi, hrest]
    simp [pyContains, pyGet, pyFind, jLen, except_bind_ok, except_pure_bind, List.find?,
      hrest]

/-- On the explicit-mapping happy path `migrate_data` reduces to the batch
loop over the chunked eligible write set. -/
theorem migrate_data_given_run (base src tgt token : String)
    (m : List (String × String)) (tf : Except String (List TableSchema))
    (rs : List Json) (env : ApiEnv)
    (hbase : ¬ base = "") (hwf : rs.all wfRecord = true) (hrs : rs ≠ [])
    (hne : eligibleRecords m rs ≠ []) :
    migrate_data base src tgt token (.given m) tf (.ok rs) env =
      ((match (migrateBatches base tgt token env (chunk10 (eligibleRecords m rs))).2 with
        | .done n => .migrated n
        | .upstreamError e => .batchError e
        | .exn e => .exnError e),
       (migrateBatches base tgt token env (chunk10 (eligibleRecords m rs))).1) := by
  have h1 : rs.isEmpty = false := by
    cases rs with
    | nil => exact absurd rfl hrs
    | cons a l => rfl
  have h2 : (eligibleRecords m rs).isEmpty = false := by
    cases he : eligibleRecords m rs with
    | nil => exact absurd he hne
    | cons a l => rfl
  simp only [migrate_data, if_neg hbase, buildTargetRecords_eq m rs hwf, h1, h2,
    Bool.false_eq_true, if_false]

theorem chunk10_sizes_23 (l : List α) (h : l.length = 23) :
    (chunk10 l).map List.length = [10, 10, 3] := by
  have h1 : l ≠ [] := by
    intro hc
    rw [hc] at h
    simp at h
  rw [chunk10_cons_eq l h1]
  have hd1 : (l.drop 10).length = 13 := by simp [List.length_drop, h]
  have h2 : l.drop 10 ≠ [] := by
    intro hc
    rw [hc] at hd1
    simp at hd1
  rw [chunk10_cons_eq _ h2]
  have hd2 : ((l.drop 10).drop 10).length = 3 := by simp [List.length_drop, h]
  have h3 : (l.drop 10).drop 10 ≠ [] := by
    intro hc
    rw [hc] at hd2
    simp at hd2
  rw [chunk10_cons_eq _ h3]
  have hd3 : (((l.drop 10).drop 10).drop 10).length = 0 := by
    simp [List.length_drop, h]
  rw [List.eq_nil_of_length_eq_zero hd3, chunk10_nil]
  simp [List.length_take, h, hd1, hd2]

/-! ## The claims -/

/-- C4.  With an explicit mapping, a nonempty well-formed source read and
all-successful create calls, `migrate_data` submits exactly the eligible
write set (records whose projection is empty are excluded) partitioned into
fixed-size batches of at most 10, sequentially in partition order, one create
call per batch; the reported migrated count is the sum of the per-batch
reported creates; and a 23-record eligible set yields exactly 3 calls of
sizes 10, 10, 3. -/
theorem c4_migrate_batching (base src tgt token : String)
    (m : List (String × String)) (tf : Except String (List TableSchema))
    (rs : List Json) (env : ApiEnv) (created : List Json → List Json)
    (hbase : ¬ base = "") (htok : ¬ token = "")
    (hwf : rs.all wfRecord = true) (hrs : rs ≠ [])
    (hne : eligibleRecords m rs ≠ [])
    (hresp : ∀ b ∈ chunk10 (eligibleRecords m rs),
      env (base ++ "/" ++ tgt) "POST" (Json.obj [("records", .arr b)]) .null =
        .success (Json.obj [("records", .arr (created b))])) :
    migrate_data base src tgt token (.given m) tf (.ok rs) env =
      (.migrated (((chunk10 (eligibleRecords m rs)).map
          (fun b => (created b).length)).sum),
       chunk10 (eligibleRecords m rs)) ∧
    ((migrate_data base src tgt token (.given m) tf (.ok rs) env).2).flatten =
      eligibleRecords m rs ∧
    (∀ b ∈ (migrate_data base src tgt token (.given m) tf (.ok rs) env).2,
      b.length ≤ 10 ∧ b ≠ []) ∧
    (∀ t ∈ eligibleRecords m rs,
      ∃ tfs, t = Json.obj [("fields", Json.obj tfs)] ∧ tfs ≠ []) ∧
    ((eligibleRecords m rs).length = 23 →
      ((migrate_data base src tgt token (.given m) tf (.ok rs) env).2).map
        List.length = [10, 10, 3]) := by
  have hrun := migrateBatches_ok base tgt token env created htok
    (chunk10 (eligibleRecords m rs)) hresp
  have hmain := migrate_data_given_run base src tgt token m tf rs env hbase hwf hrs hne
  rw [hrun] at hmain
  refine ⟨hmain, ?_, ?_, ?_, ?_⟩
  · rw [hmain]
    exact chunk10_flatten _
  · rw [hmain]
    exact fun b hb => chunk10_mem_length _ b hb
  · intro t ht
    rcases List.mem_filterMap.mp ht with ⟨tfs, _, htf⟩
    by_cases hempty : tfs.isEmpty = true
    · simp [hempty] at htf
    · have : tfs.isEmpty = false := Bool.eq_false_iff.mpr hempty
      simp only [this, Bool.false_eq_true, if_false, Option.some.injEq] at htf
      exact ⟨tfs, htf.symm, by simpa [List.isEmpty_iff] using hempty⟩
  · intro h23
    rw [hmain]
    exact chunk10_sizes_23 _ h23

/-- C4 witness: 23 concrete one-field records, an environment that reports
every submitted record created. -/
theorem c4_witness :
    migrate_data "app1" "Src" "Tgt" "tok" (.given [("A", "A")]) (.ok [])
      (.ok rec23) envEcho =
      (.migrated 23, chunk10 (eligibleRecords [("A", "A")] rec23)) ∧
    (chunk10 (eligibleRecords [("A", "A")] rec23)).map List.length = [10, 10, 3] := by
  have h := c4_migrate_batching "app1" "Src" "Tgt" "tok" [("A", "A")] (.ok [])
    rec23 envEcho (fun b => b) (by decide) (by decide) (by decide)
    (by intro hc; exact absurd (congrArg List.length hc) (by decide))
    (by intro hc; exact absurd (congrArg List.length hc) (by decide))
    (fun b _ => rfl)
  refine ⟨?_, by decide⟩
  rw [h.1]
  simp only [Prod.mk.injEq]
  exact ⟨by decide, trivial⟩

/-- C1 (amended).  When the create call for one batch fails after the earlier
batches succeeded, `migrate_data` stops: the failing batch is the last call
issued (the batches after it are never attempted) and the result is the
upstream error text alone, rendered as
`"Error creating records in target table: <e>"` — the count of records
migrated by the completed batches is not part of the report. -/
theorem c1_migrate_stops_on_batch_failure (base src tgt token : String)
    (m : List (String × String)) (tf : Except String (List TableSchema))
    (rs : List Json) (env : ApiEnv) (created : List Json → List Json)
    (pre : List (List Json)) (b : List Json) (post : List (List Json)) (e : String)
    (hbase : ¬ base = "") (htok : ¬ token = "")
    (hwf : rs.all wfRecord = true) (hrs : rs ≠ [])
    (hchunk : chunk10 (eligibleRecords m rs) = pre ++ b :: post)
    (hpre : ∀ x ∈ pre,
      env (base ++ "/" ++ tgt) "POST" (Json.obj [("records", .arr x)]) .null =
        .success (Json.obj [("records", .arr (created x))]))
    (hfail : env (base ++ "/" ++ tgt) "POST" (Json.obj [("records", .arr b)]) .null =
      .failure e) :
    migrate_data base src tgt token (.given m) tf (.ok rs) env =
      (.batchError e, pre ++ [b]) ∧
    migrateMessage src tgt (.batchError e) =
      "Error creating records in target table: " ++ e := by
  have hne : eligibleRecords m rs ≠ [] := by
    intro hc
    rw [hc, chunk10_nil] at hchunk
    exact absurd hchunk.symm (by simp)
  have hmain := migrate_data_given_run base src tgt token m tf rs env hbase hwf hrs hne
  rw [hchunk, migrateBatches_fail base tgt token env created e htok pre b post hpre hfail]
    at hmain
  exact ⟨hmain, rfl⟩

/-- C1 counterexample: 23 eligible records, the first batch succeeds (10
records reported created), the second fails upstream with `"boom"`.  The
operation does stop (only 2 of the 3 batches are attempted) but its report is
the bare error text: the count migrated before the failure — 10 — appears
nowhere in it, refuting "reports the failure together with the count of
records successfully migrated". -/
theorem c1_counterexample :
    (migrate_data "app1" "Src" "Tgt" "tok" (.given [("A", "A")]) (.ok [])
      (.ok rec23) envBoom).1 = .batchError "boom" ∧
    ((migrate_data "app1" "Src" "Tgt" "tok" (.given [("A", "A")]) (.ok [])
      (.ok rec23) envBoom).2).length = 2 ∧
    migrateMessage "Src" "Tgt" (.batchError "boom") =
      "Error creating records in target table: boom" ∧
    strContains (migrateMessage "Src" "Tgt" (.batchError "boom")) "10" = false :=
  ⟨by decide, by decide, rfl, by decide⟩

/-- C1 witness: the amended theorem at the counterexample's concrete input. -/
theorem c1_witness :
    migrate_data "app1" "Src" "Tgt" "tok" (.given [("A", "A")]) (.ok [])
      (.ok rec23) envBoom =
      (.batchError "boom",
       [(eligibleRecords [("A", "A")] rec23).take 10] ++
         [((eligibleRecords [("A", "A")] rec23).drop 10).take 10]) ∧
    migrateMessage "Src" "Tgt" (.batchError "boom") =
      "Error creating records in target table: boom" :=
  c1_migrate_stops_on_batch_failure "app1" "Src" "Tgt" "tok" [("A", "A")] (.ok [])
    rec23 envBoom (fun b => b)
    [(eligibleRecords [("A", "A")] rec23).take 10]
    (((eligibleRecords [("A", "A")] rec23).drop 10).take 10)
    [((eligibleRecords [("A", "A")] rec23).drop 10).drop 10]
    "boom" (by decide) (by decide) (by decide)
    (by intro hc; exact absurd (congrArg List.length hc) (by decide))
    rfl
    (by
      intro x hx
      rw [List.mem_singleton] at hx
      subst hx
      rfl)
    rfl

/-- Running `migrate_data` with an empty mapping never produces records to write. -/
theorem eligibleRecords_nil_mapping (rs : List Json) :
    eligibleRecords [] rs = [] := by
  simp [eligibleRecords, projFields]

/-- C3.  When the mapping argument is absent and the derived mapping is empty
(`generate_field_mapping` reports no matching fields — the condition the spec
calls `NoMappableFieldsError`), `migrate_data` on a nonempty well-formed
source read fails with the "No records to migrate after applying field
mapping." outcome and issues no create call; moreover no source read whatever
can make it issue a create call. -/
theorem c3_migrate_empty_mapping (base src tgt token : String)
    (tables : List TableSchema) (rs : List Json) (env : ApiEnv)
    (hbase : ¬ base = "")
    (hnm : generate_field_mapping base src tgt (.ok tables) = .noMatches)
    (hwf : rs.all wfRecord = true) (hrs : rs ≠ []) :
    migrate_data base src tgt token .absent (.ok tables) (.ok rs) env =
      (.noRecordsToMigrate, []) ∧
    (∀ rs' : List Json,
      (migrate_data base src tgt token .absent (.ok tables) (.ok rs') env).2 = []) := by
  have hsc : strContains (gfmString GFMOutcome.noMatches) "Error" = false := by decide
  have hred : ∀ rs' : List Json,
      migrate_data base src tgt token .absent (.ok tables) (.ok rs') env =
        (if rs'.isEmpty then ((.noSourceRecords : MigOutcome), ([] : List (List Json)))
         else match buildTargetRecords [] rs' with
           | .error e => (.exnError e, [])
           | .ok ts =>
             if ts.isEmpty then (.noRecordsToMigrate, [])
             else
               ((match (migrateBatches base tgt token env (chunk10 ts)).2 with
                 | .done n => .migrated n
                 | .upstreamError e => .batchError e
                 | .exn e => .exnError e),
                (migrateBatches base tgt token env (chunk10 ts)).1)) := by
    intro rs'
    simp only [migrate_data, if_neg hbase, hnm, hsc, Bool.false_eq_true, if_false]
  constructor
  · rw [hred rs, buildTargetRecords_eq [] rs hwf, eligibleRecords_nil_mapping rs]
    have h1 : rs.isEmpty = false := by
      cases rs with
      | nil => exact absurd rfl hrs
      | cons a l => rfl
    simp [h1]
  · intro rs'
    rw [hred rs']
    cases rs' with
    | nil => simp
    | cons r rest =>
      rcases buildTargetRecords_nil_mapping (r :: rest) with hok | ⟨e, herr⟩
      · simp [hok]
      · simp [herr]

/-- C3 witness: source and target tables share no field names, one well-formed
source record. -/
theorem c3_witness :
    migrate_data "app1" "Src" "Tgt" "tok" .absent (.ok tablesAB)
      (.ok [Json.obj [("fields", Json.obj [("A", Json.str "x")])]])
      (fun _ _ _ _ => .success .null) =
      (.noRecordsToMigrate, []) :=
  (c3_migrate_empty_mapping "app1" "Src" "Tgt" "tok" tablesAB
    [Json.obj [("fields", Json.obj [("A", Json.str "x")])]]
    (fun _ _ _ _ => .success .null)
    (by decide) (by decide) (by decide) (by simp)).1

/-- The field loop of `update_schema` characterised: additions are collected
from the desired fields absent from the live field dict, the update queue
from those present, both in desired order. -/
theorem updateSchemaFold_eq (tid : String) (ef : List (String × FieldSchema)) :
    ∀ (fs : List FieldSchema) (acc1 : List SchemaCall) (acc2 : List FieldUpdateData),
    fs.foldl (fun (st : List SchemaCall × List FieldUpdateData) field =>
      match pyFind ef field.name with
      | some e =>
        (st.1, st.2 ++ [⟨e.id, field.name, field.ftype, field.description, field.options⟩])
      | none =>
        (st.1 ++ [.addField tid ⟨field.name, field.ftype, field.description, field.options⟩],
         st.2))
      (acc1, acc2) =
    (acc1 ++ (fs.filter (fun f => (pyFind ef f.name).isNone)).map
        (fun f => SchemaCall.addField tid ⟨f.name, f.ftype, f.description, f.options⟩),
     acc2 ++ fs.filterMap (fun f => (pyFind ef f.name).map
        (fun e => (⟨e.id, f.name, f.ftype, f.description, f.options⟩ : FieldUpdateData)))) := by
  intro fs
  induction fs with
  | nil => intro acc1 acc2; simp
  | cons f rest ih =>
    intro acc1 acc2
    rw [List.foldl_cons]
    cases hf : pyFind ef f.name with
    | some e =>
      simp only [hf]
      rw [ih]
      simp [List.filter_cons, List.filterMap_cons, hf]
    | none =>
      simp only [hf]
      rw [ih]
      simp [List.filter_cons, List.filterMap_cons, hf]

/-- C2 (amended).  For a desired table whose name exists live, the
reconciliation issues one "add field" call per desired field absent from the
live table, in desired-field order, followed — after all additions — by at
most one batched "update fields" call whose batch contains exactly the
desired fields present in the live table: every shared field is submitted,
whether or not its type or description differs from the live field. -/
theorem c2_update_schema_shared_fields (E T : TableSchema) :
    update_schema_table_calls E T =
      (T.fields.filter (fun f =>
        (pyFind (pyDict (E.fields.map (fun e => (e.name, e)))) f.name).isNone)).map
        (fun f => SchemaCall.addField E.id ⟨f.name, f.ftype, f.description, f.options⟩) ++
      (if (T.fields.filterMap (fun f =>
            (pyFind (pyDict (E.fields.map (fun e => (e.name, e)))) f.name).map
              (fun e =>
                (⟨e.id, f.name, f.ftype, f.description, f.options⟩ :
                  FieldUpdateData)))).isEmpty
       then []
       else [SchemaCall.updateFields E.id
              (T.fields.filterMap (fun f =>
                (pyFind (pyDict (E.fields.map (fun e => (e.name, e)))) f.name).map
                  (fun e =>
                    (⟨e.id, f.name, f.ftype, f.description, f.options⟩ :
                      FieldUpdateData))))]) := by
  simp only [update_schema_table_calls]
  rw [updateSchemaFold_eq E.id (pyDict (E.fields.map (fun f => (f.name, f)))) T.fields [] []]
  simp

/-- C2 counterexample: the desired table `desiredA` agrees with the live
table `liveA` on its single field `A` (same name, same type, same absent
description), yet reconciliation issues a batched update call that submits
that unchanged field — refuting "unchanged shared fields are not
submitted". -/
theorem c2_counterexample :
    update_schema_table_calls liveA desiredA =
      [.updateFields "tbl1" [⟨"fld1", "A", "singleLineText", none, none⟩]] ∧
    desiredA.fields.map (fun f => (f.name, f.ftype, f.description)) =
      liveA.fields.map (fun f => (f.name, f.ftype, f.description)) :=
  ⟨rfl, rfl⟩

/-- What the mapping loop holds for one source name after one step. -/
theorem inferMapping_step_find (tgtNames : List String) (a s : String)
    (acc : List (String × String)) :
    pyFind ((if tgtNames.contains a then pyInsert acc a a
      else match tgtNames.find? (fun t => pyLower t = pyLower a) with
        | some t => pyInsert acc a t
        | none => acc) : List (String × String)) s =
      if a = s then
        ((if a ∈ tgtNames then some a
          else tgtNames.find? (fun t => pyLower t = pyLower a)).or (pyFind acc s))
      else pyFind acc s := by
  by_cases hc : tgtNames.contains a = true
  · have hmem : a ∈ tgtNames := by simpa using hc
    simp only [hc, if_true, pyFind_pyInsert, if_pos hmem]
    by_cases has : a = s <;> simp [has]
  · have hmem : ¬ a ∈ tgtNames := by simpa using hc
    have hc' : tgtNames.contains a = false := Bool.eq_false_iff.mpr hc
    cases hfind : tgtNames.find? (fun t => pyLower t = pyLower a) with
    | some t =>
      simp only [hc', Bool.false_eq_true, if_false, hfind, pyFind_pyInsert,
        if_neg hmem]
      by_cases has : a = s <;> simp [has]
    | none =>
      simp only [hc', Bool.false_eq_true, if_false, hfind, if_neg hmem]
      by_cases has : a = s <;> simp [has]

theorem inferMapping_fold_find (tgtNames : List String) (s : String) :
    ∀ (l : List String) (acc : List (String × String)),
    pyFind (l.foldl (fun field_mapping source_name =>
      if tgtNames.contains source_name then
        pyInsert field_mapping source_name source_name
      else
        match tgtNames.find? (fun t => pyLower t = pyLower source_name) with
        | some t => pyInsert field_mapping source_name t
        | none => field_mapping) acc) s =
    if s ∈ l then
      ((if s ∈ tgtNames then some s
        else tgtNames.find? (fun t => pyLower t = pyLower s)).or (pyFind acc s))
    else pyFind acc s := by
  intro l
  induction l with
  | nil => intro acc; simp
  | cons a rest ih =>
    intro acc
    rw [List.foldl_cons, ih, inferMapping_step_find]
    by_cases has : a = s
    · subst has
      by_cases hrest : a ∈ rest
      · simp only [if_pos hrest, if_pos rfl, if_pos (List.mem_cons_self a rest)]
        cases hm : (if a ∈ tgtNames then some a
            else tgtNames.find? (fun t => pyLower t = pyLower a)) <;> simp
      · simp [hrest, if_pos rfl]
    · by_cases hrest : s ∈ rest
      · have : s ∈ a :: rest := List.mem_cons_of_mem _ hrest
        simp [hrest, has, this]
      · have : ¬ s ∈ a :: rest := by
          intro hc
          rcases List.mem_cons.mp hc with rfl | hmem
          · exact has rfl
          · exact hrest hmem
        simp [hrest, has, this]

theorem inferMapping_list_eq (srcNames tgtNames : List String)
    (hnd : srcNames.Nodup) :
    inferMapping srcNames tgtNames = srcNames.filterMap (fun sn =>
      if sn ∈ tgtNames then some (sn, sn)
      else (tgtNames.find? (fun t => pyLower t = pyLower sn)).map (fun t => (sn, t))) := by
  suffices haux : ∀ (l : List String) (acc : List (String × String)), l.Nodup →
      (∀ x ∈ l, acc.any (fun p => p.1 = x) = false) →
      l.foldl (fun field_mapping source_name =>
        if tgtNames.contains source_name then
          pyInsert field_mapping source_name source_name
        else
          match tgtNames.find? (fun t => pyLower t = pyLower source_name) with
          | some t => pyInsert field_mapping source_name t
          | none => field_mapping) acc =
      acc ++ l.filterMap (fun sn =>
        if sn ∈ tgtNames then some (sn, sn)
        else (tgtNames.find? (fun t => pyLower t = pyLower sn)).map (fun t => (sn, t))) by
    have := haux srcNames [] hnd (by simp)
    simpa [inferMapping] using this
  intro l
  induction l with
  | nil => intro acc _ _; simp
  | cons a rest ih =>
    intro acc hnd hfresh
    have ha : acc.any (fun p => p.1 = a) = false := hfresh a (List.mem_cons_self _ _)
    rw [List.foldl_cons]
    have hnd' := (List.nodup_cons.mp hnd)
    by_cases hc : tgtNames.contains a = true
    · have hmem : a ∈ tgtNames := by simpa using hc
      rw [if_pos hc, pyInsert_of_not_mem _ _ _ ha,
        ih (acc ++ [(a, a)]) hnd'.2 ?fresh]
      · simp [List.filterMap_cons, hmem]
      case fresh =>
        intro x hx
        rw [Bool.eq_false_iff]
        intro hany
        rcases List.any_eq_true.mp hany with ⟨p, hp, hpk⟩
        rcases List.mem_append.mp hp with hpacc | hpa
        · have haccx := hfresh x (List.mem_cons_of_mem _ hx)
          rw [Bool.eq_false_iff] at haccx
          exact haccx (List.any_eq_true.mpr ⟨p, hpacc, hpk⟩)
        · rw [List.mem_singleton] at hpa
          subst hpa
          have hax : a = x := by simpa using hpk
          exact hnd'.1 (hax ▸ hx)
    · have hmem : ¬ a ∈ tgtNames := by simpa using hc
      have hc' : tgtNames.contains a = false := Bool.eq_false_iff.mpr hc
      cases hfind : tgtNames.find? (fun t => pyLower t = pyLower a) with
      | some t =>
        simp only [hc', Bool.false_eq_true, if_false, hfind]
        rw [pyInsert_of_not_mem _ _ _ ha,
          ih (acc ++ [(a, t)]) hnd'.2 ?fresh2]
        · simp [List.filterMap_cons, hmem, hfind]
        case fresh2 =>
          intro x hx
          rw [Bool.eq_false_iff]
          intro hany
          rcases List.any_eq_true.mp hany with ⟨p, hp, hpk⟩
          rcases List.mem_append.mp hp with hpacc | hpa
          · have haccx := hfresh x (List.mem_cons_of_mem _ hx)
            rw [Bool.eq_false_iff] at haccx
            exact haccx (List.any_eq_true.mpr ⟨p, hpacc, hpk⟩)
          · rw [List.mem_singleton] at hpa
            subst hpa
            have hax : a = x := by simpa using hpk
            exact hnd'.1 (hax ▸ hx)
      | none =>
        simp only [hc', Bool.false_eq_true, if_false, hfind]
        rw [ih acc hnd'.2 (fun x hx => hfresh x (List.mem_cons_of_mem _ hx))]
        simp [List.filterMap_cons, hmem, hfind]

/-- C5.  The inferred field mapping maps each source field name to an
exact-string match when one exists, otherwise to the first case-insensitive
match in target declaration order, and otherwise omits it; the mapping lists
the mapped source fields in source order; "Email" maps to "email" when no
exact "Email" exists but to "Email" when both exist; and an empty result is
the no-match message, which the caller does not treat as an error, with the
mapping left empty. -/
theorem c5_infer_mapping (srcNames tgtNames : List String) (s : String)
    (hnd : srcNames.Nodup) :
    (pyFind (inferMapping srcNames tgtNames) s =
      if s ∈ srcNames then
        (if s ∈ tgtNames then some s
         else tgtNames.find? (fun t => pyLower t = pyLower s))
      else none) ∧
    (inferMapping srcNames tgtNames = srcNames.filterMap (fun sn =>
      if sn ∈ tgtNames then some (sn, sn)
      else (tgtNames.find? (fun t => pyLower t = pyLower sn)).map
        (fun t => (sn, t)))) ∧
    inferMapping ["Email"] ["Name", "email"] = [("Email", "email")] ∧
    inferMapping ["Email"] ["email", "Email"] = [("Email", "Email")] ∧
    strContains (gfmString .noMatches) "Error" = false := by
  refine ⟨?_, inferMapping_list_eq srcNames tgtNames hnd, by decide, by decide, by decide⟩
  have := inferMapping_fold_find tgtNames s srcNames []
  rw [inferMapping]
  rw [this]
  by_cases hs : s ∈ srcNames
  · simp only [if_pos hs, pyFind_nil]
    cases hm : (if s ∈ tgtNames then some s
        else tgtNames.find? (fun t => pyLower t = pyLower s)) <;> simp [hm]
  · simp [hs, pyFind_nil]

/-- C5 witness: concrete source and target field-name lists. -/
theorem c5_witness :
    pyFind (inferMapping ["Email", "Age"] ["Name", "email"]) "Email" =
      (if ("Email" : String) ∈ ["Email", "Age"] then
        (if ("Email" : String) ∈ ["Name", "email"] then some "Email"
         else ["Name", "email"].find? (fun t => pyLower t = pyLower "Email"))
       else none) ∧
    inferMapping ["Email", "Age"] ["Name", "email"] =
      ["Email", "Age"].filterMap (fun sn =>
        if sn ∈ ["Name", "email"] then some (sn, sn)
        else (["Name", "email"].find? (fun t => pyLower t = pyLower sn)).map
          (fun t => (sn, t))) := by
  have h := c5_infer_mapping ["Email", "Age"] ["Name", "email"] "Email" (by decide)
  exact ⟨h.1, h.2.1⟩

/-! ## Helper lemmas about the schema differ -/

theorem pyDict_keys_mem (l : List (String × α)) (k : String) :
    k ∈ (pyDict l).map (fun p => p.1) ↔ k ∈ l.map (fun p => p.1) := by
  rw [← pyFind_isSome_iff, ← pyFind_isSome_iff, pyFind_pyDict]

theorem fieldDiff_missing_mem (dT lT : TableSchema) (f : String) :
    f ∈ (fieldDiff dT lT).missingFields ↔
      f ∈ dT.fields.map (fun g => g.name) ∧ ¬ f ∈ lT.fields.map (fun g => g.name) := by
  simp only [fieldDiff, List.mem_filter, pyDict_keys_mem, List.map_map,
    Option.isNone_iff_eq_none, pyFind_pyDict, pyFind_eq_none_iff]
  constructor
  · rintro ⟨h1, h2⟩
    exact ⟨by simpa [Function.comp] using h1, by simpa [Function.comp] using h2⟩
  · rintro ⟨h1, h2⟩
    exact ⟨by simpa [Function.comp] using h1, by simpa [Function.comp] using h2⟩

theorem fieldDiff_extra_mem (dT lT : TableSchema) (f : String) :
    f ∈ (fieldDiff dT lT).extraFields ↔
      f ∈ lT.fields.map (fun g => g.name) ∧ ¬ f ∈ dT.fields.map (fun g => g.name) := by
  simp only [fieldDiff, List.mem_filter, pyDict_keys_mem, List.map_map,
    Option.isNone_iff_eq_none, pyFind_pyDict, pyFind_eq_none_iff]
  constructor
  · rintro ⟨h1, h2⟩
    exact ⟨by simpa [Function.comp] using h1, by simpa [Function.comp] using h2⟩
  · rintro ⟨h1, h2⟩
    exact ⟨by simpa [Function.comp] using h1, by simpa [Function.comp] using h2⟩

theorem mem_keyed_iff (key : β → String) (fs : List β) (p : String × β) :
    p ∈ fs.map (fun f => (key f, f)) ↔ p.2 ∈ fs ∧ key p.2 = p.1 := by
  rw [List.mem_map]
  constructor
  · rintro ⟨g, hg, rfl⟩
    exact ⟨hg, rfl⟩
  · rintro ⟨hmem, hname⟩
    exact ⟨p.2, hmem, by rw [hname]⟩

/-- Checking `contains` on the live-table dict keys is live-table-name membership. -/
theorem tableNames_contains (live : List TableSchema) (n : String) :
    ((pyDict (live.map (fun t => (t.name, t)))).map (fun p => p.1)).contains n = true ↔
      n ∈ live.map (fun t => t.name) := by
  constructor
  · intro h
    have hk : n ∈ (pyDict (live.map (fun t => (t.name, t)))).map (fun p => p.1) := by
      simpa using h
    rw [pyDict_keys_mem] at hk
    simpa [List.map_map, Function.comp] using hk
  · intro h
    have hk : n ∈ (pyDict (live.map (fun t => (t.name, t)))).map (fun p => p.1) := by
      rw [pyDict_keys_mem]
      simpa [List.map_map, Function.comp] using h
    simpa using hk

theorem fieldDiff_mismatch_mem (dT lT : TableSchema)
    (hd : (dT.fields.map (fun g => g.name)).Nodup)
    (hl : (lT.fields.map (fun g => g.name)).Nodup)
    (f lt dt : String) :
    (f, lt, dt) ∈ (fieldDiff dT lT).typeMismatches ↔
      ∃ df ∈ dT.fields, ∃ lf ∈ lT.fields,
        df.name = f ∧ lf.name = f ∧ lf.ftype = lt ∧ df.ftype = dt ∧ ¬ lt = dt := by
  have hdkeys : ((dT.fields.map (fun f => (f.name, f))).map (fun p => p.1)).Nodup := by
    simpa [List.map_map, Function.comp] using hd
  have hlkeys : ((lT.fields.map (fun f => (f.name, f))).map (fun p => p.1)).Nodup := by
    simpa [List.map_map, Function.comp] using hl
  simp only [fieldDiff, pyDict_eq_self_of_nodup _ hdkeys,
    pyDict_eq_self_of_nodup _ hlkeys, List.mem_filterMap]
  constructor
  · rintro ⟨p, hp, heq⟩
    rcases (mem_keyed_iff FieldSchema.name dT.fields p).mp hp with ⟨hdf, hdname⟩
    cases hfind : pyFind (lT.fields.map (fun f => (f.name, f))) p.1 with
    | none => simp [hfind] at heq
    | some cf =>
      simp only [hfind] at heq
      by_cases hne : p.2.ftype ≠ cf.ftype
      · rw [if_pos hne] at heq
        simp only [Option.some.injEq, Prod.mk.injEq] at heq
        obtain ⟨h1, h2, h3⟩ := heq
        rcases (pyFind_eq_some_iff_of_nodup _ _ _ hlkeys).mp hfind with hcfmem
        rcases (mem_keyed_iff FieldSchema.name lT.fields (p.1, cf)).mp hcfmem with
          ⟨hlf, hlname⟩
        exact ⟨p.2, hdf, cf, hlf, by rw [hdname, h1], by rw [hlname, h1],
          h2, h3, by rw [← h2, ← h3]; exact fun hc => hne hc.symm⟩
      · rw [if_neg hne] at heq
        exact absurd heq (by simp)
  · rintro ⟨df, hdf, lf, hlf, hdfn, hlfn, hlft, hdft, hne⟩
    refine ⟨(df.name, df), (mem_keyed_iff FieldSchema.name dT.fields _).mpr ⟨hdf, rfl⟩, ?_⟩
    have hfind : pyFind (lT.fields.map (fun f => (f.name, f))) df.name = some lf := by
      apply (pyFind_eq_some_iff_of_nodup _ _ _ hlkeys).mpr
      exact (mem_keyed_iff FieldSchema.name lT.fields (df.name, lf)).mpr
        ⟨hlf, by rw [hlfn, hdfn]⟩
    simp only [hfind]
    have hcond : (df.name, df).2.ftype ≠ lf.ftype := by
      show df.ftype ≠ lf.ftype
      rw [hdft, hlft]
      exact fun hc => hne hc.symm
    rw [if_pos hcond]
    show some (df.name, lf.ftype, df.ftype) = some (f, lt, dt)
    rw [hdfn, hlft, hdft]

/-- C6.  The schema diff reports as missing tables exactly the desired table
names absent live, as extra tables exactly the live names absent from the
desired schema; for each table present in both, missing fields are desired
field names absent live, extra fields live names absent from the desired
table, and type mismatches exactly the shared fields with unequal type
strings; and the ["Projects","Tasks"] vs ["Projects","Archive"] scenario
yields missingTables = ["Archive"], extraTables = ["Tasks"]. -/
theorem c6_compare_schemas (desired live : List TableSchema)
    (hl : (live.map (fun t => t.name)).Nodup)
    (hdf : ∀ t ∈ desired, ((t.fields.map (fun g => g.name)).Nodup))
    (hlf : ∀ t ∈ live, ((t.fields.map (fun g => g.name)).Nodup)) :
    (∀ n, n ∈ (compare_schemas desired live).missingTables ↔
      n ∈ desired.map (fun t => t.name) ∧ ¬ n ∈ live.map (fun t => t.name)) ∧
    (∀ n, n ∈ (compare_schemas desired live).extraTables ↔
      n ∈ live.map (fun t => t.name) ∧ ¬ n ∈ desired.map (fun t => t.name)) ∧
    (∀ dT ∈ desired, ∀ lT ∈ live, dT.name = lT.name →
      fieldDiff dT lT ∈ (compare_schemas desired live).tableDiffs ∧
      (∀ f, f ∈ (fieldDiff dT lT).missingFields ↔
        f ∈ dT.fields.map (fun g => g.name) ∧ ¬ f ∈ lT.fields.map (fun g => g.name)) ∧
      (∀ f, f ∈ (fieldDiff dT lT).extraFields ↔
        f ∈ lT.fields.map (fun g => g.name) ∧ ¬ f ∈ dT.fields.map (fun g => g.name)) ∧
      (∀ f lt dt, (f, lt, dt) ∈ (fieldDiff dT lT).typeMismatches ↔
        ∃ df ∈ dT.fields, ∃ lf ∈ lT.fields,
          df.name = f ∧ lf.name = f ∧ lf.ftype = lt ∧ df.ftype = dt ∧ ¬ lt = dt)) ∧
    (compare_schemas exDesired exLive).missingTables = ["Archive"] ∧
    (compare_schemas exDesired exLive).extraTables = ["Tasks"] := by
  have hlkeys : ((live.map (fun t => (t.name, t))).map (fun p => p.1)).Nodup := by
    simpa [List.map_map, Function.comp] using hl
  refine ⟨?_, ?_, ?_, rfl, rfl⟩
  · intro n
    simp only [compare_schemas]
    rw [List.mem_filter]
    constructor
    · rintro ⟨h1, h2⟩
      refine ⟨h1, fun hc => ?_⟩
      rw [(tableNames_contains live n).mpr hc] at h2
      simp at h2
    · rintro ⟨h1, h2⟩
      refine ⟨h1, ?_⟩
      cases hcon : ((pyDict (live.map (fun t => (t.name, t)))).map
          (fun p => p.1)).contains n with
      | true => exact absurd ((tableNames_contains live n).mp hcon) h2
      | false => simp [hcon]
  · intro n
    simp only [compare_schemas]
    rw [List.mem_filter]
    constructor
    · rintro ⟨h1, h2⟩
      have hlive : n ∈ live.map (fun t => t.name) :=
        (tableNames_contains live n).mp (by simpa using h1)
      refine ⟨hlive, fun hc => ?_⟩
      have : (desired.map (fun t => t.name)).contains n = true := by simpa using hc
      rw [this] at h2
      simp at h2
    · rintro ⟨h1, h2⟩
      refine ⟨by
        have := (tableNames_contains live n).mpr h1
        simpa using this, ?_⟩
      cases hcon : (desired.map (fun t => t.name)).contains n with
      | true => exact absurd (by simpa using hcon) h2
      | false => simp [hcon]
  · intro dT hdT lT hlT hname
    have hfind : pyFind (live.map (fun t => (t.name, t))) dT.name = some lT := by
      apply (pyFind_eq_some_iff_of_nodup _ _ _ hlkeys).mpr
      exact (mem_keyed_iff TableSchema.name live (dT.name, lT)).mpr ⟨hlT, hname.symm⟩
    refine ⟨?_, fieldDiff_missing_mem dT lT, fieldDiff_extra_mem dT lT,
      fieldDiff_mismatch_mem dT lT (hdf dT hdT) (hlf lT hlT)⟩
    simp only [compare_schemas]
    apply List.mem_filterMap.mpr
    refine ⟨dT, hdT, ?_⟩
    rw [pyFind_pyDict, hfind]
    rfl

/-- C6 witness: the spec's comparison scenario. -/
theorem c6_witness :
    (compare_schemas exDesired exLive).missingTables = ["Archive"] ∧
    (compare_schemas exDesired exLive).extraTables = ["Tasks"] := by
  have h := c6_compare_schemas exDesired exLive (by decide)
    (by intro t ht; fin_cases ht <;> decide)
    (by intro t ht; fin_cases ht <;> decide)
  exact ⟨h.2.2.2.1, h.2.2.2.2⟩

/-- Diffing a table against itself yields no field differences. -/
theorem fieldDiff_self (t : TableSchema) :
    (fieldDiff t t).missingFields = [] ∧ (fieldDiff t t).extraFields = [] ∧
    (fieldDiff t t).typeMismatches = [] := by
  refine ⟨?_, ?_, ?_⟩
  · simp only [fieldDiff]
    apply List.filter_eq_nil_iff.mpr
    intro n hn
    have hs : (pyFind (pyDict (t.fields.map (fun f => (f.name, f)))) n).isSome = true :=
      (pyFind_isSome_iff _ _).mpr hn
    cases hx : pyFind (pyDict (t.fields.map (fun f => (f.name, f)))) n with
    | some v => simp [hx]
    | none => rw [hx] at hs; simp at hs
  · simp only [fieldDiff]
    apply List.filter_eq_nil_iff.mpr
    intro n hn
    have hs : (pyFind (pyDict (t.fields.map (fun f => (f.name, f)))) n).isSome = true :=
      (pyFind_isSome_iff _ _).mpr hn
    cases hx : pyFind (pyDict (t.fields.map (fun f => (f.name, f)))) n with
    | some v => simp [hx]
    | none => rw [hx] at hs; simp at hs
  · simp only [fieldDiff]
    apply List.filterMap_eq_nil_iff.mpr
    intro p hp
    have hfind : pyFind (pyDict (t.fields.map (fun f => (f.name, f)))) p.1 = some p.2 := by
      rcases p with ⟨k, v⟩
      exact (pyFind_eq_some_iff_of_nodup _ _ _ (pyDict_keys_nodup _)).mpr hp
    simp [hfind]

/-- C7.  Comparing any schema with valid (duplicate-free) table names against
itself reports no missing tables, no extra tables and no per-table field or
type differences — the report says the schemas are identical. -/
theorem c7_compare_self (S : List TableSchema)
    (h : (S.map (fun t => t.name)).Nodup) :
    (compare_schemas S S).missingTables = [] ∧
    (compare_schemas S S).extraTables = [] ∧
    (∀ d ∈ (compare_schemas S S).tableDiffs,
      d.missingFields = [] ∧ d.extraFields = [] ∧ d.typeMismatches = []) ∧
    schemasIdentical (compare_schemas S S) = true := by
  have hkeys : ((S.map (fun t => (t.name, t))).map (fun p => p.1)).Nodup := by
    simpa [List.map_map, Function.comp] using h
  have hmiss : (compare_schemas S S).missingTables = [] := by
    simp only [compare_schemas]
    apply List.filter_eq_nil_iff.mpr
    intro n hn
    have hc := (tableNames_contains S n).mpr hn
    rw [hc]
    simp
  have hextra : (compare_schemas S S).extraTables = [] := by
    simp only [compare_schemas]
    apply List.filter_eq_nil_iff.mpr
    intro n hn
    have hnames : n ∈ S.map (fun t => t.name) := by
      have := (pyDict_keys_mem (S.map (fun t => (t.name, t))) n).mp hn
      simpa [List.map_map, Function.comp] using this
    have hc : (S.map (fun t => t.name)).contains n = true := by simpa using hnames
    rw [hc]
    simp
  have hdiffs : ∀ d ∈ (compare_schemas S S).tableDiffs,
      d.missingFields = [] ∧ d.extraFields = [] ∧ d.typeMismatches = [] := by
    intro d hd
    simp only [compare_schemas] at hd
    rcases List.mem_filterMap.mp hd with ⟨tS, htS, hmap⟩
    rw [pyFind_pyDict] at hmap
    have hfind : pyFind (S.map (fun t => (t.name, t))) tS.name = some tS := by
      apply (pyFind_eq_some_iff_of_nodup _ _ _ hkeys).mpr
      exact (mem_keyed_iff TableSchema.name S (tS.name, tS)).mpr ⟨htS, rfl⟩
    rw [hfind] at hmap
    simp only [Option.map_some', Option.some.injEq] at hmap
    rw [← hmap]
    exact fieldDiff_self tS
  refine ⟨hmiss, hextra, hdiffs, ?_⟩
  have hany : ((compare_schemas S S).tableDiffs.any (fun d =>
      !d.missingFields.isEmpty || !d.extraFields.isEmpty ||
        !d.typeMismatches.isEmpty)) = false := by
    rw [Bool.eq_false_iff]
    intro hc
    rcases List.any_eq_true.mp hc with ⟨d, hd, hpred⟩
    rcases hdiffs d hd with ⟨h1, h2, h3⟩
    rw [h1, h2, h3] at hpred
    simp at hpred
  simp [schemasIdentical, hmiss, hextra, hany]

/-- C7 witness: the scenario's live schema compared against itself. -/
theorem c7_witness :
    schemasIdentical (compare_schemas exLive exLive) = true :=
  (c7_compare_self exLive (by decide)).2.2.2

/-- C9.  `import_records` is a pure dispatch on the truthiness of
`update_existing`: `True` gives exactly `update_records` on the same
arguments, `False` — and the Python default, `None`-like absence modelled by
`none` — gives exactly `create_records`. -/
theorem c9_import_records_dispatch (base table_name : String)
    (records_json : Option Json) (token : String) (env : ApiEnv) :
    import_records base table_name records_json (some true) token env =
      update_records base table_name records_json token env ∧
    import_records base table_name records_json (some false) token env =
      create_records base table_name records_json token env ∧
    import_records base table_name records_json none token env =
      create_records base table_name records_json token env :=
  ⟨rfl, rfl, rfl⟩

/-! ## Helper lemmas for `delete_records` and `list_bases` -/

theorem take6_append (l rest : List Char) (h : 6 ≤ l.length) :
    (l ++ rest).take 6 = l.take 6 :=
  List.take_append_of_le_length h

theorem take6_len_ge (l rest : List Char) (h : 6 ≤ l.length) :
    6 ≤ (l ++ rest).length := by
  rw [List.length_append]
  omega

theorem deleted_msg_ne (a b : String) :
    ¬ ("Successfully deleted " ++ a ++ " out of " ++ b ++ " records." =
      "Error: No record IDs provided.") := by
  intro h
  have hA : 6 ≤ ("Successfully deleted ").data.length := by decide
  have h6 := congrArg (fun x => x.data.take 6) h
  simp only [String.data_append] at h6
  rw [take6_append _ _ (take6_len_ge _ _ (take6_len_ge _ _ (take6_len_ge _ _ hA))),
    take6_append _ _ (take6_len_ge _ _ (take6_len_ge _ _ hA)),
    take6_append _ _ (take6_len_ge _ _ hA),
    take6_append _ _ hA] at h6
  exact absurd h6 (by decide)

theorem deleteExn_msg_ne (e : String) :
    ¬ ("Error deleting records: " ++ e = "Error: No record IDs provided.") := by
  intro h
  have h6 := congrArg (fun x => x.data.take 6) h
  simp only [String.data_append] at h6
  rw [take6_append _ _ (by decide)] at h6
  exact absurd h6 (by decide)

/-- Under responses the `"error" in result` check handles, the delete loop
never raises: it issues one DELETE per id, in order, and returns a count. -/
theorem deleteLoop_handled (base tbl token : String) (env : ApiEnv)
    (henv : envHandled env) :
    ∀ ids : List String, ∃ n, deleteLoop base tbl token env ids = (ids, .ok n) := by
  intro ids
  induction ids with
  | nil => exact ⟨0, rfl⟩
  | cons rid rest ih =>
    rcases ih with ⟨n, hn⟩
    have hcont : ∃ b, pyContains
        (api_call token (base ++ "/" ++ tbl ++ "/" ++ rid) "DELETE" .null .null env)
        "error" = .ok b := by
      by_cases htok : token = ""
      · exact ⟨true, by simp [api_call, htok, pyContains]⟩
      · cases hresp : env (base ++ "/" ++ tbl ++ "/" ++ rid) "DELETE" .null .null with
        | success body =>
          have hh := henv (base ++ "/" ++ tbl ++ "/" ++ rid) "DELETE" .null .null
          rw [hresp] at hh
          cases body with
          | obj es =>
            exact ⟨es.any (fun p => p.1 = "error"),
              by simp [api_call, htok, supportedMethods, hresp, pyContains]⟩
          | arr xs =>
            exact ⟨xs.any (fun x => x == .str "error"),
              by simp [api_call, htok, supportedMethods, hresp, pyContains]⟩
          | str s =>
            exact ⟨strContains s "error",
              by simp [api_call, htok, supportedMethods, hresp, pyContains]⟩
          | null => simp [respHandled] at hh
          | bool b => simp [respHandled] at hh
          | num v => simp [respHandled] at hh
        | failure e =>
          exact ⟨true, by simp [api_call, htok, supportedMethods, hresp, pyContains]⟩
    rcases hcont with ⟨b, hb⟩
    exact ⟨(if b then 0 else 1) + n, by simp [deleteLoop, hb, hn, Except.map]⟩

/-- C10.  With a base set, `delete_records` issues exactly one DELETE call
per comma-separated segment of `record_ids` after whitespace trimming (in
input order); its "No record IDs provided." branch is unreachable for every
input, base and environment, because splitting any string on "," yields at
least one segment; in particular the empty input issues one DELETE with an
empty record id instead of failing fast. -/
theorem c10_delete_records (base tbl rids token : String) (env : ApiEnv)
    (hbase : ¬ base = "") (henv : envHandled env) :
    (delete_records base tbl rids token env).2 =
      (pySplitComma rids.toList).map (fun l => String.mk (pyStrip l)) ∧
    (∀ (b t r tok : String) (env' : ApiEnv),
      ¬ (delete_records b t r tok env').1 = "Error: No record IDs provided.") ∧
    (delete_records base tbl "" token env).2 = [""] := by
  have hids : ∀ r : String,
      (pySplitComma r.toList).map (fun l => String.mk (pyStrip l)) ≠ [] := by
    intro r hc
    exact pySplitComma_ne_nil r.toList (List.map_eq_nil_iff.mp hc)
  refine ⟨?_, ?_, ?_⟩
  · rcases deleteLoop_handled base tbl token env henv
      ((pySplitComma rids.toList).map (fun l => String.mk (pyStrip l))) with ⟨n, hloop⟩
    simp only [delete_records, if_neg hbase, if_neg (hids rids), hloop]
  · intro b t r tok env'
    by_cases hb : b = ""
    · subst hb
      rw [show delete_records "" t r tok env' = (noBaseMsg, []) from rfl]
      decide
    · simp only [delete_records, if_neg hb, if_neg (hids r)]
      cases hres : (deleteLoop b t tok env'
          ((pySplitComma r.toList).map (fun l => String.mk (pyStrip l)))).2 with
      | ok n =>
        have := deleted_msg_ne (toString n)
          (toString ((pySplitComma r.toList).map (fun l => String.mk (pyStrip l))).length)
        simpa [hres] using this
      | error e =>
        have := deleteExn_msg_ne e
        simpa [hres] using this
  · rcases deleteLoop_handled base tbl token env henv
      ((pySplitComma "".toList).map (fun l => String.mk (pyStrip l))) with ⟨n, hloop⟩
    simp only [delete_records, if_neg hbase, if_neg (hids ""), hloop]
    rfl

/-- C10 witness: two comma-separated ids with stray whitespace, every
response an empty object. -/
theorem c10_witness :
    (delete_records "app1" "T" " rec1 ,rec2" "tok"
      (fun _ _ _ _ => .success (.obj []))).2 = ["rec1", "rec2"] ∧
    ¬ (delete_records "app1" "T" " rec1 ,rec2" "tok"
      (fun _ _ _ _ => .success (.obj []))).1 = "Error: No record IDs provided." := by
  have h := c10_delete_records "app1" "T" " rec1 ,rec2" "tok"
    (fun _ _ _ _ => .success (.obj [])) (by decide)
    (fun _ _ _ _ => by simp [respHandled])
  exact ⟨by rw [h.1]; rfl, h.2.1 "app1" "T" " rec1 ,rec2" "tok" _⟩

/-- On well-formed base entries the enumeration loop never raises. -/
theorem baseLines_ok (xs : List Json) (h : xs.all wfBaseEntry = true) :
    ∀ i : Nat, ∃ ls, baseLines i xs = .ok ls := by
  induction xs with
  | nil => intro i; exact ⟨[], rfl⟩
  | cons b rest ih =>
    intro i
    simp only [List.all_cons, Bool.and_eq_true] at h
    rcases ih h.2 (i + 1) with ⟨ls, hls⟩
    cases b with
    | obj bs =>
      have hb := h.1
      simp only [wfBaseEntry, Bool.and_eq_true] at hb
      rcases Option.isSome_iff_exists.mp hb.1 with ⟨nm, hnm⟩
      rcases Option.isSome_iff_exists.mp hb.2 with ⟨idv, hid⟩
      refine ⟨(toString (i + 1) ++ ". " ++ pyStr nm ++ " (ID: " ++ pyStr idv ++ ")") :: ls, ?_⟩
      simp [baseLines, pyIndex, hnm, hid, except_bind_ok, hls]
    | null => simp [wfBaseEntry] at h
    | bool v => simp [wfBaseEntry] at h
    | num v => simp [wfBaseEntry] at h
    | str v => simp [wfBaseEntry] at h
    | arr v => simp [wfBaseEntry] at h

/-- C8.  The HTTP primitive reports every failure cause — missing credential,
an exception from the exchange (HTTP error status, network failure, timeout),
an unsupported method — by returning a value carrying an `"error"` field
rather than raising; and `list_bases` always returns a completed string
result under the wire contract, with an upstream failure rendered as an
`"Error:"`-prefixed string. -/
theorem c8_errors_as_values (token endpoint method : String) (data params : Json)
    (env : ApiEnv) (htok : ¬ token = "")
    (hwf : ∀ body, env "meta/bases" "GET" .null .null = .success body →
      wfBasesBody body = true) :
    (api_call "" endpoint method data params env =
      .obj [("error", .str "No Airtable API token provided. Please set via --token or AIRTABLE_PERSONAL_ACCESS_TOKEN")]) ∧
    (∀ e, env endpoint method data params = .failure e →
      supportedMethods.contains method = true →
      api_call token endpoint method data params env = .obj [("error", .str e)]) ∧
    (supportedMethods.contains method = false →
      api_call token endpoint method data params env =
        .obj [("error", .str ("Unsupported method: " ++ method))]) ∧
    (∀ e, env "meta/bases" "GET" .null .null = .failure e →
      list_bases token env = .ok ("Error: " ++ e)) ∧
    (∃ s, list_bases token env = .ok s) := by
  have hget : "GET" ∈ supportedMethods := by decide
  refine ⟨by simp [api_call], ?_, ?_, ?_, ?_⟩
  · intro e he hm
    have hm' : method ∈ supportedMethods := by simpa using hm
    simp [api_call, htok, he, hm']
  · intro hm
    have hm' : ¬ method ∈ supportedMethods := by
      intro hc
      have hc' : supportedMethods.contains method = true := by simpa using hc
      rw [hc'] at hm
      simp at hm
    simp [api_call, htok, hm']
  · intro e he
    simp [list_bases, api_call, htok, he, hget, pyContains, pyIndex, pyFind, pyStr,
      except_bind_ok, except_pure_bind, except_pure_eq]
  · cases hresp : env "meta/bases" "GET" .null .null with
    | failure e =>
      refine ⟨"Error: " ++ e, ?_⟩
      simp [list_bases, api_call, htok, hresp, hget, pyContains, pyIndex, pyFind, pyStr,
        except_bind_ok, except_pure_bind, except_pure_eq]
    | success body =>
      have hwfb := hwf body hresp
      cases body with
      | obj es =>
        by_cases herr : es.any (fun p => p.1 = "error") = true
        · have hsome : (pyFind es "error").isSome = true := by
            apply (pyFind_isSome_iff es "error").mpr
            rcases List.any_eq_true.mp herr with ⟨p, hp, hpk⟩
            exact List.mem_map.mpr ⟨p, hp, by simpa using hpk⟩
          rcases Option.isSome_iff_exists.mp hsome with ⟨v, hv⟩
          refine ⟨"Error: " ++ pyStr v, ?_⟩
          simp [list_bases, api_call, htok, hresp, hget, pyContains, herr, pyIndex, hv,
            except_bind_ok, except_pure_bind, except_pure_eq]
        · have herr' : es.any (fun p => p.1 = "error") = false := Bool.eq_false_iff.mpr herr
          simp only [wfBasesBody] at hwfb
          cases hfind : pyFind es "bases" with
          | none =>
            refine ⟨"No bases found accessible with your token.", ?_⟩
            simp [list_bases, api_call, htok, hresp, hget, pyContains, herr', pyGet, hfind,
              jFalsy, except_bind_ok, except_pure_bind, except_pure_eq]
          | some bs =>
            cases bs with
            | arr xs =>
              rw [hfind] at hwfb
              cases hxs : xs.isEmpty with
              | true =>
                refine ⟨"No bases found accessible with your token.", ?_⟩
                simp [list_bases, api_call, htok, hresp, hget, pyContains, herr', pyGet,
                  hfind, jFalsy, hxs, except_bind_ok, except_pure_bind, except_pure_eq]
              | false =>
                rcases baseLines_ok xs hwfb 0 with ⟨ls, hls⟩
                refine ⟨"Available bases:\n" ++ String.intercalate "\n" ls, ?_⟩
                simp [list_bases, api_call, htok, hresp, hget, pyContains, herr', pyGet,
                  hfind, jFalsy, hxs, jIter, hls, except_bind_ok, except_pure_bind,
                  except_pure_eq]
            | null => rw [hfind] at hwfb; simp at hwfb
            | bool v => rw [hfind] at hwfb; simp at hwfb
            | num v => rw [hfind] at hwfb; simp at hwfb
            | str v => rw [hfind] at hwfb; simp at hwfb
            | obj v => rw [hfind] at hwfb; simp at hwfb
      | null => simp [wfBasesBody] at hwfb
      | bool v => simp [wfBasesBody] at hwfb
      | num v => simp [wfBasesBody] at hwfb
      | str v => simp [wfBasesBody] at hwfb
      | arr v => simp [wfBasesBody] at hwfb

/-- C8 witness: a concrete failing exchange and a concrete well-formed
success body. -/
theorem c8_witness :
    api_call "tok" "meta/bases" "GET" .null .null (fun _ _ _ _ => .failure "boom") =
      .obj [("error", .str "boom")] ∧
    list_bases "tok" (fun _ _ _ _ => .failure "boom") = .ok ("Error: " ++ "boom") := by
  have h := c8_errors_as_values "tok" "meta/bases" "GET" .null .null
    (fun _ _ _ _ => .failure "boom") (by decide)
    (fun body hb => by exact absurd hb (by simp))
  exact ⟨h.2.1 "boom" rfl (by decide), h.2.2.2.1 "boom" rfl⟩

end Airtable
